import Mathlib

/-!
# Page behaviours of the portfolio site (`src/script.js`)

A shallow embedding of the event handlers that `script.js` registers, and the
properties of the specification that concern them.

* `classList` : the token-list operations the script uses on `class` attributes.
* `Timers`    : `setTimeout` / `clearTimeout` over a virtual clock.
* `Page`      : the mutable part of the document the handlers touch, with
  `dispatch` running, for one input, every listener the script registered for it,
  in registration order.
* `highlight` : the `IntersectionObserver` callback of `initActiveLinkHighlighting`.
* `Debounced` : one closure returned by `debounce(func, wait)`.

Times are milliseconds on a virtual clock (`Nat`); pixel offsets are `Int`.
-/

namespace Portfolio

/-! ## `classList` -/

namespace classList

/-- The call `classList.contains(c)`. -/
def contains (cs : List String) (c : String) : Bool :=
  cs.elem c

/-- The call `classList.add(c)`: the token is appended unless already present. -/
def add (cs : List String) (c : String) : List String :=
  if contains cs c then cs else cs ++ [c]

/-- The call `classList.remove(c)`. -/
def remove (cs : List String) (c : String) : List String :=
  cs.filter (fun x => x != c)

/-- The call `classList.toggle(c)`: removes the token when present, adds it otherwise. -/
def toggle (cs : List String) (c : String) : List String :=
  if contains cs c then remove cs c else cs ++ [c]

end classList

/-! ## Element content -/

/-- A child node of an element: a text node, or an element with its own children. -/
inductive Node where
  | text (data : String)
  | element (tag : String) (children : List Node)
deriving Repr

mutual
/-- The `textContent` of one node: the concatenated data of its text descendants. -/
def Node.textContent : Node → String
  | .text s => s
  | .element _ kids => Node.textContentList kids
/-- The `textContent` of a list of sibling nodes. -/
def Node.textContentList : List Node → String
  | [] => ""
  | n :: rest => Node.textContent n ++ Node.textContentList rest
end

/-- The children produced by the assignment `button.innerHTML = '<svg …>…</svg>Loading...'`
(script.js line 142): the spinner `svg`, holding a `circle` and a `path`, followed by the
text node `Loading...`. -/
def loadingMarkup : List Node :=
  [.element "svg" [.element "circle" [], .element "path" []], .text "Loading..."]

/-- The children left by the assignment `el.textContent = s`: a single text node,
or nothing when `s` is empty. -/
def setTextContent (s : String) : List Node :=
  if s = "" then [] else [.text s]

/-- The part of an element the handlers read or write. -/
structure Element where
  /-- lower-case tag name -/
  tag : String
  /-- value of `getAttribute('href')` -/
  href : Option String
  /-- the `class` tokens -/
  classes : List String
  /-- the `disabled` property -/
  disabled : Bool
  /-- child nodes -/
  children : List Node

/-- Getter `el.textContent`. -/
def Element.textContent (el : Element) : String :=
  Node.textContentList el.children

/-- Whether a string starts with `#`. -/
def startsWithHash (h : String) : Bool :=
  match h.data with
  | '#' :: _ => true
  | _ => false

/-- The `href` of an element matching the selector `a[href^="#"]`, if it matches. -/
def hashHref (el : Element) : Option String :=
  if el.tag = "a" then
    match el.href with
    | some h => if startsWithHash h then some h else none
    | none => none
  else none

/-- The test `el.matches('a[href^="#"]')`. -/
def matchesHashAnchor (el : Element) : Bool :=
  (hashHref el).isSome

/-- The test `el.matches('button, .btn-primary')`. -/
def matchesButton (el : Element) : Bool :=
  el.tag == "button" || classList.contains el.classes "btn-primary"

/-! ## Timers -/

/-- A pending `setTimeout` task. -/
structure Timer (κ : Type) where
  id : Nat
  /-- earliest time at which the task may run -/
  due : Nat
  callback : κ

/-- The timer table of the window. -/
structure Timers (κ : Type) where
  nextId : Nat
  pending : List (Timer κ)

/-- The delay `setTimeout` keeps: its argument converted to a signed 32-bit integer, a
negative result counting as 0. A delay of `2^31` ms or more is not honoured. -/
def timerDelay (delay : Nat) : Nat :=
  if delay % 4294967296 < 2147483648 then delay % 4294967296 else 0

/-- The call `setTimeout(cb, delay)` made at time `now`: returns the handle and the new table. -/
def setTimeout {κ : Type} (q : Timers κ) (now : Nat) (cb : κ) (delay : Nat) : Nat × Timers κ :=
  (q.nextId,
    { nextId := q.nextId + 1
      pending := q.pending ++ [⟨q.nextId, now + timerDelay delay, cb⟩] })

/-- The call `clearTimeout(handle)`; the handle may be `undefined` or stale. -/
def clearTimeout {κ : Type} (q : Timers κ) (handle : Option Nat) : Timers κ :=
  match handle with
  | none => q
  | some i => { q with pending := q.pending.filter (fun tm => tm.id != i) }

/-- Takes out of the table the task the event loop runs next at time `now`: among the
tasks that are due, the one with the earliest due time, the earliest created among equals. -/
def popDue {κ : Type} (now : Nat) : List (Timer κ) → Option (Timer κ × List (Timer κ))
  | [] => none
  | tm :: rest =>
    match popDue now rest with
    | none => if tm.due ≤ now then some (tm, rest) else none
    | some (b, rest') =>
      if tm.due ≤ now ∧ tm.due ≤ b.due then some (tm, rest) else some (b, tm :: rest')

/-! ## The document -/

/-- Modelled from the spec: the HTML document is not part of the sources; §4.3 and §6 give
its menu structure: a toggle button `#mobileMenuBtn`, a separate panel `#mobileMenu`, and the
links of `#mobileNavLinks` inside the panel. `Place` says where a click target lies. -/
inductive Place where
  /-- the menu button or a descendant of it -/
  | menuBtn
  /-- a link of `#mobileNavLinks` (or a descendant of one), inside the panel -/
  | navLink
  /-- inside the panel, not on one of its links -/
  | panel
  /-- outside both the button and the panel -/
  | elsewhere
deriving DecidableEq, Repr

/-- The test `menuBtn.contains(target)`. -/
def Place.inMenuBtn : Place → Bool
  | .menuBtn => true
  | _ => false

/-- The test `mobileMenu.contains(target)`. -/
def Place.inMobileMenu : Place → Bool
  | .navLink => true
  | .panel => true
  | _ => false

/-- Result of `document.querySelector(sel)`. -/
inductive QueryResult where
  /-- not a valid selector: a `SyntaxError` is thrown -/
  | invalid
  /-- no element matches: `null` -/
  | null
  /-- the first matching element, with its `offsetTop` -/
  | element (offsetTop : Int)
deriving DecidableEq, Repr

/-- The parts of the document the handlers only read. -/
structure Doc where
  /-- whether `document.getElementById('mobileMenuBtn')` is not null -/
  hasMenuBtn : Bool
  /-- whether `document.getElementById('mobileMenu')` is not null -/
  hasMenu : Bool
  /-- where each element lies with respect to the menu -/
  place : Nat → Place
  /-- the function `document.querySelector` -/
  querySelector : String → QueryResult
  /-- the `offsetHeight` of `document.querySelector('header')`, if there is a header -/
  header : Option Int

/-- The guard of `initMobileMenu`: `menuBtn && mobileMenu`. -/
def Doc.wired (doc : Doc) : Bool :=
  doc.hasMenuBtn && doc.hasMenu

/-- Uncaught exceptions a handler can raise. -/
inductive JsError where
  /-- property access on `null` -/
  | typeError
  /-- invalid selector passed to `querySelector` -/
  | syntaxError
deriving DecidableEq, Repr

/-- Argument of `window.scrollTo`. -/
structure ScrollToOptions where
  top : Int
  behavior : String
deriving DecidableEq, Repr

/-- Callbacks the page handlers pass to `setTimeout`. -/
inductive Callback where
  /-- script.js lines 145-148, closed over `button` and `originalText` -/
  | restoreButton (button : Nat) (originalText : String)
  /-- script.js lines 223-225, closed over `errorDiv` -/
  | removeBanner (errorDiv : Nat)
deriving DecidableEq, Repr

/-- The mutable state the handlers act on. -/
structure Page where
  /-- the token list `mobileMenu.classList` -/
  menuClasses : List String
  /-- the `aria-label` attribute of the menu button -/
  ariaLabel : Option String
  /-- the token list `document.body.classList` -/
  bodyClasses : List String
  /-- the elements of the document, by identity -/
  elems : Nat → Element
  /-- the `window.scrollTo` requests made so far -/
  scrolls : List ScrollToOptions
  /-- whether the last click had `preventDefault` called on it -/
  defaultPrevented : Bool
  /-- errors logged by the global error listener -/
  console : List JsError
  /-- error banners currently in the body -/
  banners : List Nat
  /-- number of banners created so far -/
  bannerCount : Nat
  /-- pending timeouts -/
  timers : Timers Callback

/-- Replaces one element of the document. -/
def setElem (elems : Nat → Element) (k : Nat) (el : Element) : Nat → Element :=
  fun i => if i = k then el else elems i

/-- The menu is closed: `mobileMenu.classList.contains('hidden')`. -/
def Page.hidden (s : Page) : Bool :=
  classList.contains s.menuClasses "hidden"

/-! ## Handlers -/

/-- The window `error` listener (script.js lines 213-226): logs the error, appends a banner
and schedules its removal after 5000 ms. -/
def onError (now : Nat) (err : JsError) (s : Page) : Page :=
  let errorDiv := s.bannerCount
  { s with
    console := s.console ++ [err]
    banners := s.banners ++ [errorDiv]
    bannerCount := errorDiv + 1
    timers := (setTimeout s.timers now (.removeBanner errorDiv) 5000).2 }

/-- Click listener of the menu button (script.js lines 80-86). -/
def menuBtnClick (s : Page) : Page :=
  let classes := classList.toggle s.menuClasses "hidden"
  let isOpen := !classList.contains classes "hidden"
  { s with
    menuClasses := classes
    ariaLabel := some (if isOpen then "Close Menu" else "Open Menu") }

/-- Click listener of each link of `#mobileNavLinks` (script.js lines 91-94). -/
def navLinkClick (s : Page) : Page :=
  { s with
    menuClasses := classList.add s.menuClasses "hidden"
    ariaLabel := some "Open Menu" }

/-- Document click listener closing the menu on outside clicks (script.js lines 98-103). -/
def clickOutside (place : Place) (s : Page) : Page :=
  if !place.inMenuBtn && !place.inMobileMenu then
    { s with
      menuClasses := classList.add s.menuClasses "hidden"
      ariaLabel := some "Open Menu" }
  else s

/-- What the smooth-scroll listener did with one click. -/
structure ScrollOutcome where
  /-- whether `event.preventDefault()` was called -/
  defaultPrevented : Bool
  /-- the argument of the `window.scrollTo` call, if one was made -/
  scrollTo : Option ScrollToOptions
  /-- the exception the listener ended with, if any -/
  error : Option JsError
deriving DecidableEq, Repr

/-- Document click listener for in-page anchors (script.js lines 116-132). -/
def smoothScroll (doc : Doc) (target : Element) : ScrollOutcome :=
  match hashHref target with
  | none => { defaultPrevented := false, scrollTo := none, error := none }
  | some targetId =>
    -- event.preventDefault() has run
    match doc.querySelector targetId with
    | .invalid => { defaultPrevented := true, scrollTo := none, error := some .syntaxError }
    | .null => { defaultPrevented := true, scrollTo := none, error := none }
    | .element offsetTop =>
      match doc.header with
      | none => { defaultPrevented := true, scrollTo := none, error := some .typeError }
      | some headerHeight =>
        let targetPosition := offsetTop - headerHeight - 20
        { defaultPrevented := true
          scrollTo := some { top := targetPosition, behavior := "smooth" }
          error := none }

/-- The smooth-scroll listener acting on the page; an exception it raises reaches the
window `error` listener. -/
def smoothScrollClick (doc : Doc) (now : Nat) (target : Nat) (s : Page) : Page :=
  let out := smoothScroll doc (s.elems target)
  let s1 : Page :=
    { s with
      defaultPrevented := out.defaultPrevented
      scrolls := match out.scrollTo with
        | some o => s.scrolls ++ [o]
        | none => s.scrolls }
  match out.error with
  | some err => onError now err s1
  | none => s1

/-- Document click listener adding the loading state (script.js lines 135-150). -/
def loadingClick (now : Nat) (target : Nat) (s : Page) : Page :=
  let button := s.elems target
  if matchesButton button then
    let originalText := button.textContent
    { s with
      elems := setElem s.elems target { button with disabled := true, children := loadingMarkup }
      timers := (setTimeout s.timers now (.restoreButton target originalText) 2000).2 }
  else s

/-- The body of the `keydown` listener (script.js lines 171-185), with the exception it
ends with, if any. -/
def keydownHandler (doc : Doc) (key : String) (s : Page) : Page × Option JsError :=
  let r : Page × Option JsError :=
    if key = "Escape" then
      if doc.hasMenu && !classList.contains s.menuClasses "hidden" then
        let s1 := { s with menuClasses := classList.add s.menuClasses "hidden" }
        -- document.getElementById('mobileMenuBtn').setAttribute(…)
        if doc.hasMenuBtn then ({ s1 with ariaLabel := some "Open Menu" }, none)
        else (s1, some .typeError)
      else (s, none)
    else (s, none)
  match r.2 with
  | some err => (r.1, some err)
  | none =>
    if key = "Tab" then
      ({ r.1 with bodyClasses := classList.add r.1.bodyClasses "keyboard-navigation" }, none)
    else (r.1, none)

/-- The `mousedown` listener (script.js lines 188-190). -/
def mousedownHandler (s : Page) : Page :=
  { s with bodyClasses := classList.remove s.bodyClasses "keyboard-navigation" }

/-- Runs a timer callback. -/
def runCallback : Callback → Page → Page
  | .restoreButton button originalText, s =>
    { s with
      elems := setElem s.elems button
        { s.elems button with disabled := false, children := setTextContent originalText } }
  | .removeBanner errorDiv, s =>
    { s with banners := s.banners.filter (fun b => b != errorDiv) }

/-- The event loop runs due timers, one after the other, at most `fuel` of them. -/
def runTimers : Nat → Nat → Page → Page
  | 0, _, s => s
  | fuel + 1, now, s =>
    match popDue now s.timers.pending with
    | none => s
    | some (tm, rest) =>
      runTimers fuel now (runCallback tm.callback { s with timers := { s.timers with pending := rest } })

/-- The click listeners on the propagation path, wired by `initMobileMenu` (script.js lines
78-95) only when both menu elements exist: the menu button's or a nav link's. -/
def pathListeners (doc : Doc) (target : Nat) (s : Page) : Page :=
  if doc.wired then
    match doc.place target with
    | .menuBtn => menuBtnClick s
    | .navLink => navLinkClick s
    | _ => s
  else s

/-- What can happen to the page. -/
inductive Input where
  /-- a click dispatched at the element `target` -/
  | click (target : Nat)
  /-- a key press -/
  | keydown (key : String)
  /-- a mouse button press -/
  | mousedown
  /-- the event loop runs every timer that is due -/
  | timers
deriving DecidableEq, Repr

/-- One input at time `now`: every listener registered for it runs. For a click these are
the listeners on the propagation path (the menu button's or a nav link's, wired by
`initMobileMenu` only when both menu elements exist), then the document listeners in
registration order: smooth scroll, loading state, click-outside. -/
def dispatch (doc : Doc) (now : Nat) (s : Page) : Input → Page
  | .click target =>
    let s1 := pathListeners doc target s
    let s2 := smoothScrollClick doc now target s1
    let s3 := loadingClick now target s2
    if doc.wired then clickOutside (doc.place target) s3 else s3
  | .keydown key =>
    match keydownHandler doc key s with
    | (s1, some err) => onError now err s1
    | (s1, none) => s1
  | .mousedown => mousedownHandler s
  | .timers => runTimers s.timers.pending.length now s

/-- A run of timed inputs. -/
def run (doc : Doc) (s : Page) : List (Nat × Input) → Page
  | [] => s
  | (now, i) :: rest => run doc (dispatch doc now s i) rest

/-! ## Active-link highlighting -/

/-- The parts of the document `initActiveLinkHighlighting` reads. -/
structure NavDoc where
  /-- the function `document.getElementById` -/
  getElementById : String → Option Nat
  /-- the elements of `document.querySelectorAll('.nav-link')`, in document order -/
  navLinks : List Nat
  /-- the `href` attribute of each element -/
  href : Nat → Option String

/-- The section ids of script.js line 31. -/
def sections : List String :=
  ["about", "education", "skills", "projects", "contact"]

/-- The call `map.set(key, value)` on a `Map` kept as its list of entries. -/
def mapSet (m : List (Nat × Nat)) (key value : Nat) : List (Nat × Nat) :=
  if m.any (fun p => p.1 == key) then
    m.map (fun p => if p.1 == key then (key, value) else p)
  else m ++ [(key, value)]

/-- The call `map.get(key)`. -/
def mapGet (m : List (Nat × Nat)) (key : Nat) : Option Nat :=
  (m.find? (fun p => p.1 == key)).map Prod.snd

/-- The map `sectionToLink` built by script.js lines 33-44. -/
def sectionToLink (d : NavDoc) : List (Nat × Nat) :=
  sections.foldl
    (fun m id =>
      match d.getElementById id with
      | some sect =>
        match d.navLinks.find? (fun a => d.href a == some ("#" ++ id)) with
        | some link => mapSet m sect link
        | none => m
      | none => m)
    []

/-- An `IntersectionObserverEntry`. -/
structure Entry where
  target : Nat
  isIntersecting : Bool
deriving DecidableEq, Repr

/-- Replaces the class list of one element. -/
def setClasses (classes : Nat → List String) (k : Nat) (cs : List String) : Nat → List String :=
  fun i => if i = k then cs else classes i

/-- Script.js lines 55-56 on one link. -/
def deactivate (cs : List String) : List String :=
  classList.add (classList.remove (classList.remove cs "text-gray-900") "font-semibold")
    "text-gray-600"

/-- Script.js lines 60-61 on the current link. -/
def activate (cs : List String) : List String :=
  classList.add (classList.add (classList.remove cs "text-gray-600") "text-gray-900")
    "font-semibold"

/-- The loop `navLinks.forEach(a => …)` of script.js lines 54-57. -/
def deactivateAll (navLinks : List Nat) (classes : Nat → List String) : Nat → List String :=
  navLinks.foldl (fun cl a => setClasses cl a (deactivate (cl a))) classes

/-- The body of `entries.forEach(entry => …)` (script.js lines 48-63). -/
def onEntry (navLinks : List Nat) (m : List (Nat × Nat)) (classes : Nat → List String)
    (entry : Entry) : Nat → List String :=
  match mapGet m entry.target with
  | none => classes
  | some link =>
    if entry.isIntersecting then
      let cleared := deactivateAll navLinks classes
      setClasses cleared link (activate (cleared link))
    else classes

/-- The observer callback on one notification batch. -/
def highlight (d : NavDoc) (classes : Nat → List String) (entries : List Entry) :
    Nat → List String :=
  entries.foldl (onEntry d.navLinks (sectionToLink d)) classes

/-- An entry that changes the highlighting: intersecting, with a mapped target. -/
def Entry.activates (d : NavDoc) (e : Entry) : Bool :=
  e.isIntersecting && (mapGet (sectionToLink d) e.target).isSome

/-- The link carries the active style. -/
def isActive (cs : List String) : Bool :=
  classList.contains cs "text-gray-900" && classList.contains cs "font-semibold"
    && !classList.contains cs "text-gray-600"

/-- The link carries the inactive style. -/
def isInactive (cs : List String) : Bool :=
  !classList.contains cs "text-gray-900" && !classList.contains cs "font-semibold"
    && classList.contains cs "text-gray-600"

/-! ## Debounce -/

/-- One closure returned by `debounce(func, wait)` (script.js lines 193-203), with the timer
table holding its `later` tasks, each closed over the arguments of its call, and the record
of the executions of `func`: when, and with which arguments. -/
structure Debounced (α : Type) where
  wait : Nat
  /-- the variable `timeout` -/
  timeout : Option Nat
  timers : Timers α
  executions : List (Nat × α)

/-- The closure state right after `debounce(func, wait)`. -/
def debounce {α : Type} (wait : Nat) : Debounced α :=
  { wait := wait, timeout := none, timers := { nextId := 1, pending := [] }, executions := [] }

/-- The call `executedFunction(...args)` at time `now`. -/
def executedFunction {α : Type} (now : Nat) (args : α) (d : Debounced α) : Debounced α :=
  let cleared := clearTimeout d.timers d.timeout
  let r := setTimeout cleared now args d.wait
  { d with timeout := some r.1, timers := r.2 }

/-- The task `later` running at time `now`: `clearTimeout(timeout); func(...args)`. -/
def later {α : Type} (now : Nat) (args : α) (d : Debounced α) : Debounced α :=
  { d with
    timers := clearTimeout d.timers d.timeout
    executions := d.executions ++ [(now, args)] }

/-- The event loop runs the due `later` tasks, at most `fuel` of them. -/
def Debounced.runTimers {α : Type} : Nat → Nat → Debounced α → Debounced α
  | 0, _, d => d
  | fuel + 1, now, d =>
    match popDue now d.timers.pending with
    | none => d
    | some (tm, rest) =>
      Debounced.runTimers fuel now (later now tm.callback { d with timers := { d.timers with pending := rest } })

/-- What happens to a debounced function: it is called, or the event loop runs due timers. -/
inductive Step (α : Type) where
  | invoke (args : α)
  | timers
deriving DecidableEq, Repr

/-- One step at time `now`. -/
def Debounced.step {α : Type} (now : Nat) (d : Debounced α) : Step α → Debounced α
  | .invoke args => executedFunction now args d
  | .timers => Debounced.runTimers d.timers.pending.length now d

/-- A run of timed steps. -/
def Debounced.run {α : Type} (d : Debounced α) : List (Nat × Step α) → Debounced α
  | [] => d
  | (now, st) :: rest => Debounced.run (Debounced.step now d st) rest

/-- The invocations of a run, with their times. -/
def invocations {α : Type} : List (Nat × Step α) → List (Nat × α)
  | [] => []
  | (now, .invoke args) :: rest => (now, args) :: invocations rest
  | (_, .timers) :: rest => invocations rest

/-! ## Invariants used in the proofs -/

/-- The label of the menu button agrees with the state of the menu. -/
def labelAgrees (s : Page) : Prop :=
  s.ariaLabel = some (if s.hidden then "Open Menu" else "Close Menu")

/-- State of a debounced closure once the last call so far was `last`. -/
def DInv {α : Type} (w : Nat) (d : Debounced α) (last : Option (Nat × α)) (now : Nat) : Prop :=
  d.wait = w ∧
  match last with
  | none => d.timers.pending = [] ∧ d.executions = []
  | some c => c.1 ≤ now ∧
      ((∃ h, d.timers.pending = [⟨h, c.1 + w, c.2⟩] ∧ d.timeout = some h ∧ d.executions = []) ∨
       (d.timers.pending = [] ∧ ∃ t, d.executions = [(t, c.2)] ∧ c.1 + w ≤ t ∧ t ≤ now))

/-- Whether a pending timer is a restoration of the element `e`. -/
def isRestoreOf (e : Nat) (tm : Timer Callback) : Bool :=
  match tm.callback with
  | .restoreButton b _ => b == e
  | .removeBanner _ => false

/-- The pending restorations of the element `e`, oldest first. -/
def restoresOf (e : Nat) (s : Page) : List (Timer Callback) :=
  s.timers.pending.filter (isRestoreOf e)

/-- What a predicate on the pending restorations and the state of the element `e` must satisfy
to survive the firing, at time `now`, of a restoration of `e`. -/
def FiringStable (e now : Nat) (I : List (Timer Callback) → Element → Prop) : Prop :=
  ∀ rs el pre b post txt, I rs el → rs = pre ++ b :: post → b.due ≤ now →
    (∀ x ∈ pre, x.due ≤ now → b.due < x.due) → b.callback = Callback.restoreButton e txt →
    I (pre ++ post) { el with disabled := false, children := setTextContent txt }

/-- The pending restorations of `e` fire in the order of the list, none later than `D`, and
the last of them restores the text `X`; when none is pending the element is enabled and its
text is `X`. -/
def Settles (e : Nat) (X : String) (D : Nat) (rs : List (Timer Callback)) (el : Element) : Prop :=
  rs.Pairwise (fun a b => a.due ≤ b.due) ∧ (∀ tm ∈ rs, tm.due ≤ D) ∧
  match rs.getLast? with
  | some tm => tm.callback = Callback.restoreButton e X
  | none => el.disabled = false ∧ el.textContent = X

/-- The pending restorations of `e` are in the order of their due times, none later than `D`. -/
def Ordered (D : Nat) (rs : List (Timer Callback)) (_el : Element) : Prop :=
  rs.Pairwise (fun a b => a.due ≤ b.due) ∧ ∀ tm ∈ rs, tm.due ≤ D

/-- Exactly the restoration `tm` is pending and the element is `el0`. -/
def InFlight (tm : Timer Callback) (el0 : Element) (rs : List (Timer Callback)) (el : Element) :
    Prop :=
  rs = [tm] ∧ el = el0

/-! ## A sample page -/

/-- A sample document: element 1 is the menu button, 2 a panel link to `#about`, 3 a
`.btn-primary` anchor outside the menu, 4 a `div` in the panel; every other element is a
`div` outside the menu. The header is 64 pixels high and `#about` lies at offset 600. -/
def sampleDoc : Doc where
  hasMenuBtn := true
  hasMenu := true
  place := fun i =>
    match i with
    | 1 => .menuBtn
    | 2 => .navLink
    | 4 => .panel
    | _ => .elsewhere
  querySelector := fun sel =>
    if sel = "#about" then .element 600
    else if sel = "#" then .invalid
    else .null
  header := some 64

/-- The elements of the sample page. -/
def sampleElems : Nat → Element := fun i =>
  match i with
  | 1 => { tag := "button", href := none, classes := [], disabled := false,
           children := [.element "svg" []] }
  | 2 => { tag := "a", href := some "#about", classes := [], disabled := false,
           children := [.text "About"] }
  | 3 => { tag := "a", href := some "resume.pdf", classes := ["btn-primary"], disabled := false,
           children := [.text "Download"] }
  | _ => { tag := "div", href := none, classes := [], disabled := false, children := [] }

/-- The sample page as loaded: menu closed, no timer pending. -/
def samplePage : Page where
  menuClasses := ["md:hidden", "hidden"]
  ariaLabel := some "Open Menu"
  bodyClasses := []
  elems := sampleElems
  scrolls := []
  defaultPrevented := false
  console := []
  banners := []
  bannerCount := 0
  timers := { nextId := 1, pending := [] }

/-- An in-page anchor with the given `href`. -/
def anchorTo (href : String) : Element :=
  { tag := "a", href := some href, classes := [], disabled := false, children := [.text "link"] }

/-- The sample document without its menu button. -/
def docWithoutButton : Doc :=
  { sampleDoc with hasMenuBtn := false }

/-- The sample page with its menu shown: no `hidden` token on the panel. -/
def pageMenuOpen : Page :=
  { samplePage with menuClasses := ["md:hidden"] }

/-- The sample page with the text of its `.btn-primary` anchor, element 3, being
`Loading...`. -/
def pageLoadingLabel : Page :=
  { samplePage with
    elems := fun i =>
      if i = 3 then
        { tag := "a", href := some "resume.pdf", classes := ["btn-primary"], disabled := false,
          children := [.text "Loading..."] }
      else sampleElems i }

/-- A sample navigation: sections `about` (element 10) and `skills` (element 12) exist, and
the links 20, 21, 22 point to `#about`, `#skills` and `#blog`. -/
def sampleNav : NavDoc where
  getElementById := fun id =>
    if id = "about" then some 10 else if id = "skills" then some 12 else none
  navLinks := [20, 21, 22]
  href := fun a =>
    match a with
    | 20 => some "#about"
    | 21 => some "#skills"
    | 22 => some "#blog"
    | _ => none

/-- Class lists in which the `#about` link is the active one. -/
def sampleClasses : Nat → List String := fun a =>
  match a with
  | 20 => ["nav-link", "text-gray-900", "font-semibold"]
  | _ => ["nav-link", "text-gray-600"]

/-! ## Lemmas on `timerDelay` -/

theorem timerDelay_of_lt (w : Nat) (h : w < 2147483648) : timerDelay w = w := by
  have hm : w % 4294967296 = w := Nat.mod_eq_of_lt (by omega)
  simp [timerDelay, hm, h]

theorem timerDelay_2000 : timerDelay 2000 = 2000 := by decide

theorem timerDelay_5000 : timerDelay 5000 = 5000 := by decide

/-! ## Lemmas on `classList` -/

theorem classList.contains_iff (cs : List String) (c : String) :
    classList.contains cs c = true ↔ c ∈ cs := by
  simp [classList.contains]

theorem classList.contains_add (cs : List String) (c x : String) :
    classList.contains (classList.add cs c) x = (classList.contains cs x || x == c) := by
  unfold classList.add
  split
  · rename_i h
    by_cases hx : x = c
    · subst hx; simp [h]
    · simp [hx]
  · by_cases hx : x = c <;> simp [classList.contains, List.elem_eq_mem, hx]

theorem classList.contains_remove (cs : List String) (c x : String) :
    classList.contains (classList.remove cs c) x = (classList.contains cs x && x != c) := by
  simp only [classList.contains, classList.remove, List.elem_eq_mem]
  by_cases hx : x = c
  · subst hx; simp
  · by_cases hm : x ∈ cs <;> simp [hx, hm]

theorem classList.contains_toggle (cs : List String) (c : String) :
    classList.contains (classList.toggle cs c) c = !classList.contains cs c := by
  unfold classList.toggle
  split
  · rename_i h
    simp [classList.contains_remove, h]
  · rename_i h
    simp [classList.contains, List.elem_eq_mem] at h ⊢
    exact h

/-! ## The menu under `dispatch` -/

theorem smoothScrollClick_menu (doc : Doc) (now target : Nat) (s : Page) :
    (smoothScrollClick doc now target s).menuClasses = s.menuClasses ∧
      (smoothScrollClick doc now target s).ariaLabel = s.ariaLabel := by
  simp only [smoothScrollClick]
  split <;> simp [onError]

theorem loadingClick_menu (now target : Nat) (s : Page) :
    (loadingClick now target s).menuClasses = s.menuClasses ∧
      (loadingClick now target s).ariaLabel = s.ariaLabel := by
  simp only [loadingClick]
  split <;> simp

theorem runCallback_menu (cb : Callback) (s : Page) :
    (runCallback cb s).menuClasses = s.menuClasses ∧ (runCallback cb s).ariaLabel = s.ariaLabel := by
  cases cb <;> simp [runCallback]

theorem runTimers_menu (fuel now : Nat) (s : Page) :
    (runTimers fuel now s).menuClasses = s.menuClasses ∧
      (runTimers fuel now s).ariaLabel = s.ariaLabel := by
  induction fuel generalizing s with
  | zero => simp [runTimers]
  | succ n ih =>
    unfold runTimers
    split
    · simp
    · rename_i tm rest _
      have h1 := ih (runCallback tm.callback { s with timers := { s.timers with pending := rest } })
      have h2 := runCallback_menu tm.callback { s with timers := { s.timers with pending := rest } }
      simp [h1, h2]

/-- The menu part of the page after a click, by the place of its target. -/
theorem dispatch_click_menu (doc : Doc) (now target : Nat) (s : Page) (hw : doc.wired = true) :
    (dispatch doc now s (.click target)).menuClasses =
        (match doc.place target with
          | .menuBtn => classList.toggle s.menuClasses "hidden"
          | .navLink => classList.add s.menuClasses "hidden"
          | .panel => s.menuClasses
          | .elsewhere => classList.add s.menuClasses "hidden") ∧
      (dispatch doc now s (.click target)).ariaLabel =
        (match doc.place target with
          | .menuBtn =>
            some (if !classList.contains (classList.toggle s.menuClasses "hidden") "hidden"
              then "Close Menu" else "Open Menu")
          | .navLink => some "Open Menu"
          | .panel => s.ariaLabel
          | .elsewhere => some "Open Menu") := by
  simp only [dispatch, pathListeners, hw, if_true]
  cases hp : doc.place target <;>
    simp [clickOutside, Place.inMenuBtn, Place.inMobileMenu, loadingClick_menu,
      smoothScrollClick_menu, menuBtnClick, navLinkClick]

theorem dispatch_keydown_menu (doc : Doc) (now : Nat) (key : String) (s : Page)
    (hbtn : doc.hasMenuBtn = true) (hmenu : doc.hasMenu = true) :
    (dispatch doc now s (.keydown key)).menuClasses =
        (if key = "Escape" ∧ s.hidden = false then classList.add s.menuClasses "hidden"
          else s.menuClasses) ∧
      (dispatch doc now s (.keydown key)).ariaLabel =
        (if key = "Escape" ∧ s.hidden = false then some "Open Menu" else s.ariaLabel) := by
  by_cases hk : key = "Escape"
  · subst hk
    by_cases hh : classList.contains s.menuClasses "hidden" = true
    · simp [dispatch, keydownHandler, hbtn, hmenu, Page.hidden, hh]
    · simp [dispatch, keydownHandler, hbtn, hmenu, Page.hidden, hh]
  · by_cases ht : key = "Tab"
    · subst ht
      simp [dispatch, keydownHandler, hbtn, hmenu, Page.hidden]
    · simp [dispatch, keydownHandler, hbtn, hmenu, Page.hidden, hk, ht]

theorem dispatch_labelAgrees (doc : Doc) (now : Nat) (s : Page) (i : Input)
    (hbtn : doc.hasMenuBtn = true) (hmenu : doc.hasMenu = true) (h : labelAgrees s) :
    labelAgrees (dispatch doc now s i) := by
  have hw : doc.wired = true := by simp [Doc.wired, hbtn, hmenu]
  unfold labelAgrees at h ⊢
  cases i with
  | click target =>
    obtain ⟨h1, h2⟩ := dispatch_click_menu doc now target s hw
    rw [h2]
    simp only [Page.hidden, h1]
    cases hp : doc.place target
    · simp only [classList.contains_toggle]
      cases classList.contains s.menuClasses "hidden" <;> simp
    · simp [classList.contains_add]
    · simpa [Page.hidden] using h
    · simp [classList.contains_add]
  | keydown key =>
    obtain ⟨h1, h2⟩ := dispatch_keydown_menu doc now key s hbtn hmenu
    by_cases hc : key = "Escape" ∧ s.hidden = false
    · rw [if_pos hc] at h1 h2
      rw [h2]
      simp [Page.hidden, h1, classList.contains_add]
    · rw [if_neg hc] at h1 h2
      rw [h2]
      simpa [Page.hidden, h1] using h
  | mousedown => simpa [dispatch, mousedownHandler, Page.hidden] using h
  | timers =>
    obtain ⟨h1, h2⟩ := runTimers_menu s.timers.pending.length now s
    simpa [dispatch, Page.hidden, h1, h2] using h

theorem run_labelAgrees (doc : Doc) (hbtn : doc.hasMenuBtn = true) (hmenu : doc.hasMenu = true)
    (trace : List (Nat × Input)) (s : Page) (h : labelAgrees s) :
    labelAgrees (run doc s trace) := by
  induction trace generalizing s with
  | nil => simpa [run] using h
  | cons e rest ih =>
    obtain ⟨now, i⟩ := e
    exact ih _ (dispatch_labelAgrees doc now s i hbtn hmenu h)

theorem run_clicks_hidden (doc : Doc) (hw : doc.wired = true) (clicks : List (Nat × Nat))
    (htarget : ∀ c ∈ clicks, doc.place c.2 = Place.menuBtn) (s : Page) :
    (run doc s (clicks.map (fun c => (c.1, Input.click c.2)))).hidden =
      (if clicks.length % 2 = 0 then s.hidden else !s.hidden) := by
  induction clicks generalizing s with
  | nil => simp [run]
  | cons c rest ih =>
    have hc : doc.place c.2 = Place.menuBtn := htarget c (List.mem_cons_self _ _)
    have hrest : ∀ c ∈ rest, doc.place c.2 = Place.menuBtn :=
      fun x hx => htarget x (List.mem_cons_of_mem _ hx)
    have h1 := (dispatch_click_menu doc c.1 c.2 s hw).1
    rw [hc] at h1
    have hflip : (dispatch doc c.1 s (.click c.2)).hidden = !s.hidden := by
      simp [Page.hidden, h1, classList.contains_toggle]
    simp only [List.map_cons, run, List.length_cons]
    rw [ih hrest, hflip]
    rcases Nat.mod_two_eq_zero_or_one rest.length with h | h
    · have : (rest.length + 1) % 2 = 1 := by omega
      simp [h, this]
    · have : (rest.length + 1) % 2 = 0 := by omega
      simp [h, this]

/-! ## The claims on the mobile menu -/

/-- C1: with both menu elements present and the menu closed, after `n` clicks on the menu
button, each one running the toggle listener and the three document click listeners, the
menu is closed when `n` is even and open when `n` is odd. -/
theorem C1_toggle_parity (doc : Doc) (s : Page) (clicks : List (Nat × Nat))
    (hbtn : doc.hasMenuBtn = true) (hmenu : doc.hasMenu = true)
    (hclosed : s.hidden = true)
    (htarget : ∀ c ∈ clicks, doc.place c.2 = Place.menuBtn) :
    (run doc s (clicks.map (fun c => (c.1, Input.click c.2)))).hidden =
      decide (clicks.length % 2 = 0) := by
  have hw : doc.wired = true := by simp [Doc.wired, hbtn, hmenu]
  rw [run_clicks_hidden doc hw clicks htarget s, hclosed]
  by_cases h : clicks.length % 2 = 0 <;> simp [h]

/-- Three clicks on the button of the sample page leave its menu open. -/
theorem C1_toggle_parity_witness :
    (run sampleDoc samplePage
      ([(0, 1), (150, 1), (4000, 1)].map (fun c => (c.1, Input.click c.2)))).hidden = false :=
  C1_toggle_parity sampleDoc samplePage [(0, 1), (150, 1), (4000, 1)] rfl rfl (by decide)
    (by decide)

/-- C2: with both menu elements present, from every state a click on a panel link, a click
outside the button and the panel, and an Escape key press each leave the menu closed, and
no key press opens a closed menu. -/
theorem C2_closing_transitions (doc : Doc) (now : Nat) (s : Page)
    (hbtn : doc.hasMenuBtn = true) (hmenu : doc.hasMenu = true) :
    (∀ target, doc.place target = Place.navLink →
        (dispatch doc now s (.click target)).hidden = true) ∧
      (∀ target, doc.place target = Place.elsewhere →
        (dispatch doc now s (.click target)).hidden = true) ∧
      (dispatch doc now s (.keydown "Escape")).hidden = true ∧
      (∀ key, s.hidden = true → (dispatch doc now s (.keydown key)).hidden = true) := by
  have hw : doc.wired = true := by simp [Doc.wired, hbtn, hmenu]
  refine ⟨?_, ?_, ?_, ?_⟩
  · intro target hp
    have h1 := (dispatch_click_menu doc now target s hw).1
    rw [hp] at h1
    simp [Page.hidden, h1, classList.contains_add]
  · intro target hp
    have h1 := (dispatch_click_menu doc now target s hw).1
    rw [hp] at h1
    simp [Page.hidden, h1, classList.contains_add]
  · have h1 := (dispatch_keydown_menu doc now "Escape" s hbtn hmenu).1
    by_cases hh : s.hidden = false
    · rw [if_pos ⟨rfl, hh⟩] at h1
      simp [Page.hidden, h1, classList.contains_add]
    · rw [if_neg (fun hc => hh hc.2)] at h1
      simpa [Page.hidden, h1] using hh
  · intro key hh
    have h1 := (dispatch_keydown_menu doc now key s hbtn hmenu).1
    rw [if_neg (by simp [hh])] at h1
    simpa [Page.hidden, h1] using hh

/-- C9: with both menu elements present, from a closed menu labelled 'Open Menu', after any
run of clicks, key presses, mouse presses and timer runs the label of the button is
'Close Menu' exactly when the menu is open and 'Open Menu' exactly when it is closed. -/
theorem C9_label_invariant (doc : Doc) (s : Page) (trace : List (Nat × Input))
    (hbtn : doc.hasMenuBtn = true) (hmenu : doc.hasMenu = true)
    (hclosed : s.hidden = true) (hlabel : s.ariaLabel = some "Open Menu") :
    ((run doc s trace).ariaLabel = some "Close Menu" ↔ (run doc s trace).hidden = false) ∧
      ((run doc s trace).ariaLabel = some "Open Menu" ↔ (run doc s trace).hidden = true) := by
  have h0 : labelAgrees s := by simp [labelAgrees, hclosed, hlabel]
  have h := run_labelAgrees doc hbtn hmenu trace s h0
  unfold labelAgrees at h
  rw [h]
  cases (run doc s trace).hidden <;> simp

/-- Both menu elements of the sample page exist, its menu is closed, and an outside click
leaves it closed. -/
theorem C2_closing_transitions_witness :
    (∀ target, sampleDoc.place target = Place.navLink →
        (dispatch sampleDoc 10 pageMenuOpen (.click target)).hidden = true) ∧
      (∀ target, sampleDoc.place target = Place.elsewhere →
        (dispatch sampleDoc 10 pageMenuOpen (.click target)).hidden = true) ∧
      (dispatch sampleDoc 10 pageMenuOpen (.keydown "Escape")).hidden = true ∧
      (∀ key, pageMenuOpen.hidden = true →
        (dispatch sampleDoc 10 pageMenuOpen (.keydown key)).hidden = true) :=
  C2_closing_transitions sampleDoc 10 pageMenuOpen rfl rfl

/-- On the sample page, after a button click, an Escape press and another button click the
label is 'Close Menu' and the menu is open. -/
theorem C9_label_invariant_witness :
    ((run sampleDoc samplePage
          [(0, .click 1), (5, .keydown "Escape"), (9, .click 1)]).ariaLabel = some "Close Menu" ↔
        (run sampleDoc samplePage
          [(0, .click 1), (5, .keydown "Escape"), (9, .click 1)]).hidden = false) ∧
      ((run sampleDoc samplePage
          [(0, .click 1), (5, .keydown "Escape"), (9, .click 1)]).ariaLabel = some "Open Menu" ↔
        (run sampleDoc samplePage
          [(0, .click 1), (5, .keydown "Escape"), (9, .click 1)]).hidden = true) :=
  C9_label_invariant sampleDoc samplePage [(0, .click 1), (5, .keydown "Escape"), (9, .click 1)]
    rfl rfl (by decide) rfl

/-- When the panel `#mobileMenu` is missing, no input changes the menu classes or the label
of the button, and the `keydown` listener raises nothing. -/
theorem absent_panel_noop (doc : Doc) (now : Nat) (s : Page) (i : Input)
    (hmenu : doc.hasMenu = false) :
    (dispatch doc now s i).menuClasses = s.menuClasses ∧
      (dispatch doc now s i).ariaLabel = s.ariaLabel ∧
      ∀ key, (keydownHandler doc key s).2 = none := by
  have hw : doc.wired = false := by simp [Doc.wired, hmenu]
  refine ⟨?_, ?_, ?_⟩
  · cases i with
    | click target =>
      simp [dispatch, pathListeners, hw, (loadingClick_menu _ _ _).1,
        (smoothScrollClick_menu _ _ _ _).1]
    | keydown key =>
      by_cases ht : key = "Tab"
      · subst ht; simp [dispatch, keydownHandler, hmenu]
      · simp [dispatch, keydownHandler, hmenu, ht]
    | mousedown => simp [dispatch, mousedownHandler]
    | timers => simp [dispatch, (runTimers_menu _ _ _).1]
  · cases i with
    | click target =>
      simp [dispatch, pathListeners, hw, (loadingClick_menu _ _ _).2,
        (smoothScrollClick_menu _ _ _ _).2]
    | keydown key =>
      by_cases ht : key = "Tab"
      · subst ht; simp [dispatch, keydownHandler, hmenu]
      · simp [dispatch, keydownHandler, hmenu, ht]
    | mousedown => simp [dispatch, mousedownHandler]
    | timers => simp [dispatch, (runTimers_menu _ _ _).2]
  · intro key
    by_cases ht : key = "Tab"
    · subst ht; simp [keydownHandler, hmenu]
    · simp [keydownHandler, hmenu, ht]

/-- C7: on a document without `#mobileMenuBtn` whose panel `#mobileMenu` is shown, nothing is
wired by `initMobileMenu`, yet an Escape key press adds `hidden` to the panel and the
`keydown` listener ends with a `TypeError`, which reaches the error listener. -/
theorem C7_escape_without_button :
    docWithoutButton.wired = false ∧
      pageMenuOpen.hidden = false ∧
      (dispatch docWithoutButton 0 pageMenuOpen (.keydown "Escape")).hidden = true ∧
      (keydownHandler docWithoutButton "Escape" pageMenuOpen).2 = some JsError.typeError ∧
      (dispatch docWithoutButton 0 pageMenuOpen (.keydown "Escape")).console =
        [JsError.typeError] := by
  decide

/-! ## Smooth scroll -/

/-- C6: a click on an anchor whose `href` starts with `#`, when the target element and a
header exist, calls `preventDefault` and requests a smooth scroll to
`target.offsetTop - header.offsetHeight - 20`, a position from which the target lies
`header.offsetHeight + 20` below. -/
theorem C6_smooth_scroll_position (doc : Doc) (target : Element) (href : String)
    (offsetTop headerHeight : Int)
    (htag : target.tag = "a") (hhref : target.href = some href)
    (hhash : startsWithHash href = true)
    (htarget : doc.querySelector href = QueryResult.element offsetTop)
    (hheader : doc.header = some headerHeight) :
    smoothScroll doc target =
        { defaultPrevented := true
          scrollTo := some { top := offsetTop - headerHeight - 20, behavior := "smooth" }
          error := none } ∧
      offsetTop - (offsetTop - headerHeight - 20) = headerHeight + 20 := by
  refine ⟨?_, by ring⟩
  simp [smoothScroll, hashHref, htag, hhref, hhash, htarget, hheader]

/-- A click on the `#about` link of the sample page asks for a smooth scroll to 516. -/
theorem C6_smooth_scroll_position_witness :
    smoothScroll sampleDoc (anchorTo "#about") =
        { defaultPrevented := true
          scrollTo := some { top := 600 - 64 - 20, behavior := "smooth" }
          error := none } ∧
      (600 : Int) - (600 - 64 - 20) = 64 + 20 :=
  C6_smooth_scroll_position sampleDoc (anchorTo "#about") "#about" 600 64 rfl rfl (by decide)
    (by decide) rfl

/-- C8, as stated, fails on a click on `<a href="#">` in the sample document: no element
matches and a header exists, yet the listener raises an error, and it has called
`preventDefault`. -/
theorem C8_counterexample :
    ¬ ((smoothScroll sampleDoc (anchorTo "#")).error ≠ none ↔
        ((∃ top, sampleDoc.querySelector "#" = QueryResult.element top) ∧
          sampleDoc.header = none)) ∧
      ¬ ((¬ ∃ top, sampleDoc.querySelector "#" = QueryResult.element top) →
        smoothScroll sampleDoc (anchorTo "#") =
          { defaultPrevented := false, scrollTo := none, error := none }) := by
  have hq : sampleDoc.querySelector "#" = QueryResult.invalid := by decide
  have hs : smoothScroll sampleDoc (anchorTo "#") =
      { defaultPrevented := true, scrollTo := none, error := some JsError.syntaxError } := by
    decide
  rw [hs, hq]
  simp [sampleDoc]

/-- C8, amended: on a click on an anchor whose `href` starts with `#` and is a valid
selector, the listener raises an error exactly when the target exists and no header does;
when no element matches it only calls `preventDefault`: no scroll, no error. -/
theorem C8_failure_modes (doc : Doc) (target : Element) (href : String)
    (htag : target.tag = "a") (hhref : target.href = some href)
    (hhash : startsWithHash href = true)
    (hvalid : doc.querySelector href ≠ QueryResult.invalid) :
    ((smoothScroll doc target).error ≠ none ↔
        ((∃ top, doc.querySelector href = QueryResult.element top) ∧ doc.header = none)) ∧
      (doc.querySelector href = QueryResult.null →
        smoothScroll doc target =
          { defaultPrevented := true, scrollTo := none, error := none }) := by
  have hh : hashHref target = some href := by simp [hashHref, htag, hhref, hhash]
  cases hq : doc.querySelector href with
  | invalid => exact absurd hq hvalid
  | null => simp [smoothScroll, hh, hq]
  | element top =>
    cases hd : doc.header with
    | none => simp [smoothScroll, hh, hq, hd]
    | some hgt => simp [smoothScroll, hh, hq, hd]

/-- On the sample document a click on a link to `#nowhere` only has `preventDefault`
called on it. -/
theorem C8_failure_modes_witness :
    ((smoothScroll sampleDoc (anchorTo "#nowhere")).error ≠ none ↔
        ((∃ top, sampleDoc.querySelector "#nowhere" = QueryResult.element top) ∧
          sampleDoc.header = none)) ∧
      (sampleDoc.querySelector "#nowhere" = QueryResult.null →
        smoothScroll sampleDoc (anchorTo "#nowhere") =
          { defaultPrevented := true, scrollTo := none, error := none }) :=
  C8_failure_modes sampleDoc (anchorTo "#nowhere") "#nowhere" rfl rfl (by decide) (by decide)

/-! ## Active-link highlighting -/

theorem isInactive_deactivate (cs : List String) : isInactive (deactivate cs) = true := by
  simp [isInactive, deactivate, classList.contains_add, classList.contains_remove]

theorem isActive_activate (cs : List String) : isActive (activate cs) = true := by
  simp [isActive, activate, classList.contains_add, classList.contains_remove]

theorem deactivateAll_keeps (navLinks : List Nat) (classes : Nat → List String) (a : Nat)
    (h : isInactive (classes a) = true) : isInactive (deactivateAll navLinks classes a) = true := by
  induction navLinks generalizing classes with
  | nil => simpa [deactivateAll] using h
  | cons x rest ih =>
    simp only [deactivateAll, List.foldl_cons]
    apply ih
    by_cases hx : a = x
    · simp [setClasses, hx, isInactive_deactivate]
    · simpa [setClasses, hx] using h

theorem deactivateAll_mem (navLinks : List Nat) (classes : Nat → List String) (a : Nat)
    (h : a ∈ navLinks) : isInactive (deactivateAll navLinks classes a) = true := by
  induction navLinks generalizing classes with
  | nil => simp at h
  | cons x rest ih =>
    simp only [deactivateAll, List.foldl_cons]
    by_cases hx : a = x
    · apply deactivateAll_keeps
      simp [setClasses, hx, isInactive_deactivate]
    · have hr : a ∈ rest := by
        rcases List.mem_cons.mp h with h1 | h1
        · exact absurd h1 hx
        · exact h1
      exact ih _ hr

theorem onEntry_activates (navLinks : List Nat) (m : List (Nat × Nat))
    (classes : Nat → List String) (e : Entry) (link : Nat)
    (hi : e.isIntersecting = true) (hl : mapGet m e.target = some link) :
    isActive (onEntry navLinks m classes e link) = true ∧
      ∀ a ∈ navLinks, a ≠ link → isInactive (onEntry navLinks m classes e a) = true := by
  simp only [onEntry, hl, hi, if_true]
  refine ⟨by simp [setClasses, isActive_activate], ?_⟩
  intro a ha hne
  simp only [setClasses, hne, if_false]
  exact deactivateAll_mem navLinks classes a ha

theorem onEntry_skips (navLinks : List Nat) (m : List (Nat × Nat))
    (classes : Nat → List String) (e : Entry)
    (h : (e.isIntersecting && (mapGet m e.target).isSome) = false) :
    onEntry navLinks m classes e = classes := by
  unfold onEntry
  cases hl : mapGet m e.target with
  | none => rfl
  | some link =>
    have hi : e.isIntersecting = false := by simpa [hl] using h
    simp [hi]

theorem foldl_onEntry_skips (navLinks : List Nat) (m : List (Nat × Nat)) (post : List Entry)
    (classes : Nat → List String)
    (h : ∀ x ∈ post, (x.isIntersecting && (mapGet m x.target).isSome) = false) :
    post.foldl (onEntry navLinks m) classes = classes := by
  induction post generalizing classes with
  | nil => rfl
  | cons x rest ih =>
    simp only [List.foldl_cons]
    rw [onEntry_skips navLinks m classes x (h x (List.mem_cons_self _ _))]
    exact ih classes (fun y hy => h y (List.mem_cons_of_mem _ hy))

theorem last_filter_split {α : Type} (p : α → Bool) (l : List α) (e : α)
    (h : (l.filter p).getLast? = some e) :
    ∃ pre post, l = pre ++ e :: post ∧ p e = true ∧ ∀ x ∈ post, p x = false := by
  induction l using List.reverseRecOn with
  | nil => simp at h
  | append_singleton l x ih =>
    by_cases hx : p x = true
    · have : (List.filter p (l ++ [x])).getLast? = some x := by
        simp [List.filter_append, hx]
      rw [this] at h
      cases h
      exact ⟨l, [], rfl, hx, by simp⟩
    · have hf : List.filter p (l ++ [x]) = List.filter p l := by
        simp [List.filter_append, hx]
      rw [hf] at h
      obtain ⟨pre, post, hl, he, hpost⟩ := ih h
      refine ⟨pre, post ++ [x], by simp [hl], he, ?_⟩
      intro y hy
      rcases List.mem_append.mp hy with h1 | h1
      · exact hpost y h1
      · simp at h1
        subst h1
        simpa using hx

theorem mapGet_mem (m : List (Nat × Nat)) (key v : Nat) (h : mapGet m key = some v) :
    ∃ p ∈ m, p.2 = v := by
  unfold mapGet at h
  cases hf : m.find? (fun p => p.1 == key) with
  | none => simp [hf] at h
  | some p =>
    simp [hf] at h
    exact ⟨p, List.mem_of_find?_eq_some hf, h⟩

theorem mapSet_values (m : List (Nat × Nat)) (key value : Nat) (P : Nat → Prop)
    (hm : ∀ p ∈ m, P p.2) (hv : P value) : ∀ p ∈ mapSet m key value, P p.2 := by
  intro p hp
  unfold mapSet at hp
  split at hp
  · obtain ⟨q, hq, rfl⟩ := List.mem_map.mp hp
    split
    · exact hv
    · exact hm q hq
  · rcases List.mem_append.mp hp with h1 | h1
    · exact hm p h1
    · simp at h1
      subst h1
      exact hv

theorem sectionToLink_values (d : NavDoc) : ∀ p ∈ sectionToLink d, p.2 ∈ d.navLinks := by
  unfold sectionToLink
  generalize sections = ids
  suffices H : ∀ (m : List (Nat × Nat)), (∀ p ∈ m, p.2 ∈ d.navLinks) →
      ∀ p ∈ ids.foldl
        (fun m id =>
          match d.getElementById id with
          | some sect =>
            match d.navLinks.find? (fun a => d.href a == some ("#" ++ id)) with
            | some link => mapSet m sect link
            | none => m
          | none => m) m, p.2 ∈ d.navLinks from H [] (by simp)
  induction ids with
  | nil => intro m hm; simpa using hm
  | cons id rest ih =>
    intro m hm
    simp only [List.foldl_cons]
    apply ih
    cases hs : d.getElementById id with
    | none => simpa using hm
    | some sect =>
      cases hf : d.navLinks.find? (fun a => d.href a == some ("#" ++ id)) with
      | none => simpa using hm
      | some link =>
        simp only
        exact mapSet_values m sect link (fun v => v ∈ d.navLinks) hm
          (List.mem_of_find?_eq_some hf)

/-- C3: after a notification batch with at least one intersecting entry on a mapped section,
the link mapped to the last such entry is a `.nav-link` carrying both active classes and not
`text-gray-600`, and every other `.nav-link` carries neither active class and carries
`text-gray-600`, whatever the classes were before. -/
theorem C3_one_active_link (d : NavDoc) (classes : Nat → List String) (entries : List Entry)
    (e : Entry) (link : Nat)
    (hlast : (entries.filter (Entry.activates d)).getLast? = some e)
    (hlink : mapGet (sectionToLink d) e.target = some link) :
    link ∈ d.navLinks ∧
      isActive (highlight d classes entries link) = true ∧
      ∀ a ∈ d.navLinks, a ≠ link → isInactive (highlight d classes entries a) = true := by
  obtain ⟨pre, post, hsplit, he, hpost⟩ := last_filter_split _ entries e hlast
  have hi : e.isIntersecting = true := by
    simp [Entry.activates] at he
    exact he.1
  have hmem : link ∈ d.navLinks := by
    obtain ⟨p, hp, hv⟩ := mapGet_mem _ _ _ hlink
    exact hv ▸ sectionToLink_values d p hp
  have hrun : highlight d classes entries =
      onEntry d.navLinks (sectionToLink d)
        (pre.foldl (onEntry d.navLinks (sectionToLink d)) classes) e := by
    unfold highlight
    rw [hsplit, List.foldl_append, List.foldl_cons]
    exact foldl_onEntry_skips _ _ post _ (fun x hx => by simpa [Entry.activates] using hpost x hx)
  rw [hrun]
  exact ⟨hmem, onEntry_activates _ _ _ e link hi hlink⟩

/-- In the sample navigation a batch whose last intersecting section is `skills` makes the
`#skills` link the active one. -/
theorem C3_one_active_link_witness :
    21 ∈ sampleNav.navLinks ∧
      isActive (highlight sampleNav sampleClasses [⟨10, true⟩, ⟨12, true⟩, ⟨10, false⟩] 21) = true ∧
      ∀ a ∈ sampleNav.navLinks, a ≠ 21 →
        isInactive (highlight sampleNav sampleClasses [⟨10, true⟩, ⟨12, true⟩, ⟨10, false⟩] a)
          = true :=
  C3_one_active_link sampleNav sampleClasses [⟨10, true⟩, ⟨12, true⟩, ⟨10, false⟩] ⟨12, true⟩ 21
    (by decide) (by decide)


theorem run_append (doc : Doc) (s : Page) (l1 l2 : List (Nat × Input)) :
    run doc s (l1 ++ l2) = run doc (run doc s l1) l2 := by
  induction l1 generalizing s with
  | nil => rfl
  | cons ev rest ih =>
    obtain ⟨now, i⟩ := ev
    simp [run, ih]

theorem debounced_run_append {α : Type} (d : Debounced α) (l1 l2 : List (Nat × Step α)) :
    Debounced.run d (l1 ++ l2) = Debounced.run (Debounced.run d l1) l2 := by
  induction l1 generalizing d with
  | nil => rfl
  | cons e rest ih =>
    obtain ⟨now, st⟩ := e
    simp [Debounced.run, ih]

theorem DInv_invoke {α : Type} (w : Nat) (d : Debounced α) (last : Option (Nat × α))
    (now t : Nat) (args : α) (hw : w < 2147483648) (h : DInv w d last now) (hnow : now ≤ t)
    (hgap : ∀ c, last = some c → t < c.1 + w) :
    DInv w (executedFunction t args d) (some (t, args)) t := by
  have hdelay := timerDelay_of_lt w hw
  obtain ⟨hwait, h⟩ := h
  refine ⟨by simpa [executedFunction] using hwait, le_refl _, ?_⟩
  left
  cases last with
  | none =>
    obtain ⟨hp, he⟩ := h
    refine ⟨(clearTimeout d.timers d.timeout).nextId, ?_, ?_, ?_⟩
    · cases ht : d.timeout <;>
        simp [executedFunction, setTimeout, clearTimeout, hp, hwait, ht, hdelay]
    · simp [executedFunction, setTimeout]
    · simpa [executedFunction] using he
  | some c =>
    obtain ⟨hc, h⟩ := h
    have hg := hgap c rfl
    rcases h with ⟨hd, hp, ht, he⟩ | ⟨hp, t0, he, h1, h2⟩
    · refine ⟨(clearTimeout d.timers d.timeout).nextId, ?_, ?_, ?_⟩
      · simp [executedFunction, setTimeout, clearTimeout, hp, ht, hwait, hdelay]
      · simp [executedFunction, setTimeout]
      · simpa [executedFunction] using he
    · omega

theorem DInv_timers {α : Type} (w : Nat) (d : Debounced α) (last : Option (Nat × α))
    (now t : Nat) (h : DInv w d last now) (hnow : now ≤ t) :
    DInv w (Debounced.step t d Step.timers) last t := by
  obtain ⟨hwait, h⟩ := h
  cases last with
  | none =>
    obtain ⟨hp, he⟩ := h
    simp [Debounced.step, hp, Debounced.runTimers, DInv, hwait, he]
  | some c =>
    obtain ⟨hc, h⟩ := h
    rcases h with ⟨hd, hp, ht, he⟩ | ⟨hp, t0, he, h1, h2⟩
    · by_cases hdue : c.1 + w ≤ t
      · refine ⟨?_, by omega, Or.inr ?_⟩
        · simp [Debounced.step, hp, Debounced.runTimers, popDue, hdue, later, hwait]
        · simp [Debounced.step, hp, Debounced.runTimers, popDue, hdue, later, clearTimeout, ht,
            he]
      · refine ⟨?_, by omega, Or.inl ⟨hd, ?_⟩⟩
        · simp [Debounced.step, hp, Debounced.runTimers, popDue, hdue, hwait]
        · simp [Debounced.step, hp, Debounced.runTimers, popDue, hdue, ht, he]
    · refine ⟨?_, by omega, Or.inr ?_⟩
      · simp [Debounced.step, hp, Debounced.runTimers, hwait]
      · simp [Debounced.step, hp, Debounced.runTimers]
        exact ⟨t0, he, h1, by omega⟩

theorem DInv_timers_due {α : Type} (w : Nat) (d : Debounced α) (c : Nat × α)
    (now t : Nat) (h : DInv w d (some c) now) (hdue : c.1 + w ≤ t) :
    ∃ t0, (Debounced.step t d Step.timers).executions = [(t0, c.2)] ∧ c.1 + w ≤ t0 := by
  obtain ⟨_, _, h⟩ := h
  rcases h with ⟨hd, hp, ht, he⟩ | ⟨hp, t0, he, h1, h2⟩
  · exact ⟨t, by simp [Debounced.step, hp, Debounced.runTimers, popDue, hdue, later, he], hdue⟩
  · exact ⟨t0, by simp [Debounced.step, hp, Debounced.runTimers, he], h1⟩

theorem DInv_run {α : Type} (w T : Nat) (hw : w < 2147483648) (trace : List (Nat × Step α)) :
    ∀ (d : Debounced α) (last : Option (Nat × α)) (now : Nat),
      DInv w d last now → now ≤ T → (∀ e ∈ trace, e.1 ≤ T) →
      List.Chain (· ≤ ·) now (trace.map Prod.fst) →
      List.Chain' (fun a b => b.1 < a.1 + w) (last.toList ++ invocations trace) →
      ∃ now', now' ≤ T ∧
        DInv w (Debounced.run d trace) ((last.toList ++ invocations trace).getLast?) now' := by
  induction trace with
  | nil =>
    intro d last now h hT _ _ _
    refine ⟨now, hT, ?_⟩
    cases last <;> simpa [Debounced.run, invocations] using h
  | cons e rest ih =>
    intro d last now h hT hle hs hg
    obtain ⟨t, st⟩ := e
    simp only [List.map_cons, List.chain_cons] at hs
    obtain ⟨hnow, hs⟩ := hs
    have htT : t ≤ T := hle (t, st) (List.mem_cons_self _ _)
    have hle' : ∀ e ∈ rest, e.1 ≤ T := fun x hx => hle x (List.mem_cons_of_mem _ hx)
    cases st with
    | invoke args =>
      have hgap : ∀ c, last = some c → t < c.1 + w := by
        intro c hc
        subst hc
        simp [invocations, List.chain'_cons] at hg
        exact hg.1
      have hg' : List.Chain' (fun a b => b.1 < a.1 + w)
          ((some (t, args)).toList ++ invocations rest) := by
        cases last with
        | none => simpa [invocations] using hg
        | some c =>
          simp [invocations, List.chain'_cons] at hg
          simpa using hg.2
      have h' := DInv_invoke w d last now t args hw h hnow hgap
      obtain ⟨now', hn, hfin⟩ := ih (executedFunction t args d) (some (t, args)) t h' htT hle' hs hg'
      refine ⟨now', hn, ?_⟩
      have hl : (last.toList ++ invocations ((t, Step.invoke args) :: rest)).getLast? =
          ((some (t, args)).toList ++ invocations rest).getLast? := by
        cases last <;> simp [invocations, List.getLast?_cons_cons]
      rw [hl]
      simpa [Debounced.run, Debounced.step] using hfin
    | timers =>
      have h' := DInv_timers w d last now t h hnow
      have hg' : List.Chain' (fun a b => b.1 < a.1 + w) (last.toList ++ invocations rest) := by
        simpa [invocations] using hg
      obtain ⟨now', hn, hfin⟩ := ih (Debounced.step t d Step.timers) last t h' htT hle' hs hg'
      refine ⟨now', hn, ?_⟩
      simpa [Debounced.run, invocations] using hfin

/-- C4, as stated, fails for the wait `w = 2^31`, which `setTimeout` turns into the delay 0:
with calls at 0 and 5 ms, gap `5 < w`, and the event loop running at 1 ms in between and at
`T = 5 + w` afterwards, `f` is executed twice, the first time at 1 ms with the arguments of
the first call. -/
theorem C4_counterexample :
    List.Chain' (· ≤ ·)
        (([(0, Step.invoke "a"), (1, Step.timers), (5, Step.invoke "b")] :
          List (Nat × Step String)).map Prod.fst) ∧
      List.Chain' (fun a b => b.1 < a.1 + 2147483648)
        (invocations [(0, Step.invoke "a"), (1, Step.timers), (5, Step.invoke "b")]) ∧
      (invocations [(0, Step.invoke "a"), (1, Step.timers), (5, Step.invoke "b")]).getLast? =
        some (5, "b") ∧
      (Debounced.run (debounce 2147483648)
        ([(0, Step.invoke "a"), (1, Step.timers), (5, Step.invoke "b")] ++
          [(5 + 2147483648, Step.timers)])).executions = [(1, "a"), (5 + 2147483648, "b")] ∧
      ¬ ∃ t, (Debounced.run (debounce 2147483648)
        ([(0, Step.invoke "a"), (1, Step.timers), (5, Step.invoke "b")] ++
          [(5 + 2147483648, Step.timers)])).executions = [(t, "b")] ∧ 5 + 2147483648 ≤ t := by
  have hex : (Debounced.run (debounce 2147483648)
      ([(0, Step.invoke "a"), (1, Step.timers), (5, Step.invoke "b")] ++
        [(5 + 2147483648, Step.timers)])).executions = [(1, "a"), (5 + 2147483648, "b")] := by
    decide
  refine ⟨by simp, by simp [invocations], rfl, hex, ?_⟩
  rintro ⟨t, ht, _⟩
  rw [hex] at ht
  simp at ht

/-- C4, amended: trailing-edge debounce for a wait `w < 2^31`, the delays `setTimeout`
honours. For calls of `debounce(f, w)` at non-decreasing times with every gap smaller than
`w`, the last one at `tn` with arguments `an`, interleaved in any way with runs of the event
loop: once the event loop has run at a time `T ≥ tn + w`, `f` has been executed exactly once,
not before `tn + w`, with `an`. -/
theorem C4_debounce_trailing {α : Type} (w : Nat) (trace : List (Nat × Step α)) (tn : Nat)
    (an : α) (T : Nat)
    (hw : w < 2147483648)
    (hsorted : List.Chain' (· ≤ ·) (trace.map Prod.fst))
    (hgaps : List.Chain' (fun a b => b.1 < a.1 + w) (invocations trace))
    (hlast : (invocations trace).getLast? = some (tn, an))
    (hT : tn + w ≤ T) (hlate : ∀ e ∈ trace, e.1 ≤ T) :
    ∃ t, (Debounced.run (debounce w) (trace ++ [(T, Step.timers)])).executions = [(t, an)] ∧
      tn + w ≤ t := by
  have h0 : DInv w (debounce w : Debounced α) none 0 := by simp [DInv, debounce]
  have hs : List.Chain (· ≤ ·) 0 (trace.map Prod.fst) := by
    cases trace with
    | nil => exact List.Chain.nil
    | cons e rest => exact List.Chain.cons (Nat.zero_le _) hsorted
  obtain ⟨now', hn, hfin⟩ := DInv_run w T hw trace (debounce w) none 0 h0 (Nat.zero_le _) hlate hs
    (by simpa using hgaps)
  simp only [Option.toList, List.nil_append, hlast] at hfin
  rw [debounced_run_append]
  simp only [Debounced.run]
  exact DInv_timers_due w _ (tn, an) now' T hfin hT

/-- Calls at 0, 5 and 10 ms with a wait of 16 ms: once the event loop has run at 26 ms the
function has been executed exactly once, at or after 26 ms, with the last arguments. -/
theorem C4_debounce_trailing_witness :
    ∃ t, (Debounced.run (debounce 16)
        ([(0, Step.invoke "a"), (5, Step.invoke "b"), (10, Step.invoke "c")] ++
          [(26, Step.timers)])).executions = [(t, "c")] ∧ 10 + 16 ≤ t :=
  C4_debounce_trailing 16 [(0, Step.invoke "a"), (5, Step.invoke "b"), (10, Step.invoke "c")]
    10 "c" 26 (by decide) (by simp) (by simp [invocations]) rfl (by decide) (by decide)

/-- The run of the witness above, evaluated: one execution, at 26 ms; and none while the
event loop only runs before that. -/
theorem debounce_example :
    (Debounced.run (debounce 16)
        [(0, Step.invoke "a"), (5, Step.invoke "b"), (10, Step.invoke "c"),
          (26, Step.timers)]).executions = [(26, "c")] ∧
      (Debounced.run (debounce 16)
        [(0, Step.invoke "a"), (4, Step.timers), (5, Step.invoke "b"), (10, Step.invoke "c"),
          (25, Step.timers)]).executions = [] := by
  decide


theorem textContent_setTextContent (txt : String) :
    Node.textContentList (setTextContent txt) = txt := by
  unfold setTextContent
  split
  · rename_i h; simp [Node.textContentList, h]
  · simp [Node.textContentList, Node.textContent]

theorem textContent_loadingMarkup : Node.textContentList loadingMarkup = "Loading..." := by
  decide

theorem popDue_some {κ : Type} (now : Nat) (l : List (Timer κ)) :
    ∀ b rest, popDue now l = some (b, rest) →
      ∃ l1 l2, l = l1 ++ b :: l2 ∧ rest = l1 ++ l2 ∧ b.due ≤ now ∧
        ∀ x ∈ l1, x.due ≤ now → b.due < x.due := by
  induction l with
  | nil => intro b rest h; simp [popDue] at h
  | cons tm tl ih =>
    intro b rest h
    unfold popDue at h
    cases hp : popDue now tl with
    | none =>
      rw [hp] at h
      simp only at h
      split at h
      · rename_i hdue
        cases h
        exact ⟨[], tl, rfl, rfl, hdue, by simp⟩
      · cases h
    | some r =>
      obtain ⟨b', rest'⟩ := r
      rw [hp] at h
      simp only at h
      split at h
      · rename_i hdue
        cases h
        exact ⟨[], tl, rfl, rfl, hdue.1, by simp⟩
      · rename_i hdue
        cases h
        obtain ⟨l1, l2, hl, hr, hb, hmin⟩ := ih b rest' hp
        refine ⟨tm :: l1, l2, by simp [hl], by simp [hr], hb, ?_⟩
        intro x hx hxd
        rcases List.mem_cons.mp hx with h1 | h1
        · subst h1
          by_contra hc
          exact hdue ⟨hxd, by omega⟩
        · exact hmin x h1 hxd

theorem popDue_none {κ : Type} (now : Nat) (l : List (Timer κ)) (h : popDue now l = none) :
    ∀ x ∈ l, ¬ x.due ≤ now := by
  induction l with
  | nil => simp
  | cons tm tl ih =>
    unfold popDue at h
    cases hp : popDue now tl with
    | none =>
      rw [hp] at h
      simp only at h
      split at h
      · cases h
      · rename_i hdue
        intro x hx
        rcases List.mem_cons.mp hx with h1 | h1
        · subst h1; exact hdue
        · exact ih hp x h1
    | some r =>
      rw [hp] at h
      simp only at h
      split at h <;> cases h


theorem runCallback_timers (cb : Callback) (s : Page) :
    (runCallback cb s).timers = s.timers := by
  cases cb <;> rfl

theorem fire_view (e now : Nat) (I : List (Timer Callback) → Element → Prop)
    (hI : FiringStable e now I) (s : Page) (b : Timer Callback) (rest : List (Timer Callback))
    (hp : popDue now s.timers.pending = some (b, rest))
    (h : I (restoresOf e s) (s.elems e)) :
    I (restoresOf e (runCallback b.callback { s with timers := { s.timers with pending := rest } }))
      ((runCallback b.callback { s with timers := { s.timers with pending := rest } }).elems e) := by
  obtain ⟨l1, l2, hl, hr, hb, hmin⟩ := popDue_some now _ b rest hp
  have hrest : restoresOf e
      (runCallback b.callback { s with timers := { s.timers with pending := rest } }) =
      l1.filter (isRestoreOf e) ++ l2.filter (isRestoreOf e) := by
    simp [restoresOf, runCallback_timers, hr, List.filter_append]
  rw [hrest]
  cases hcb : b.callback with
  | restoreButton b' txt =>
    by_cases hbe : b' = e
    · subst hbe
      have hrs : restoresOf b' s =
          l1.filter (isRestoreOf b') ++ b :: l2.filter (isRestoreOf b') := by
        simp [restoresOf, hl, List.filter_append, List.filter_cons, isRestoreOf, hcb]
      have := hI _ _ _ b _ txt h hrs hb
        (fun x hx => hmin x (List.mem_of_mem_filter hx)) hcb
      simpa [runCallback, setElem] using this
    · have hrs : restoresOf e s =
          l1.filter (isRestoreOf e) ++ l2.filter (isRestoreOf e) := by
        simp [restoresOf, hl, List.filter_append, List.filter_cons, isRestoreOf, hcb, hbe]
      rw [← hrs]
      have hne : e ≠ b' := fun hc => hbe hc.symm
      simpa [runCallback, setElem, hne] using h
  | removeBanner d =>
    have hrs : restoresOf e s =
        l1.filter (isRestoreOf e) ++ l2.filter (isRestoreOf e) := by
      simp [restoresOf, hl, List.filter_append, List.filter_cons, isRestoreOf, hcb]
    rw [← hrs]
    simpa [runCallback] using h

theorem runTimers_preserves (e now : Nat) (I : List (Timer Callback) → Element → Prop)
    (hI : FiringStable e now I) (fuel : Nat) :
    ∀ s : Page, I (restoresOf e s) (s.elems e) →
      I (restoresOf e (runTimers fuel now s)) ((runTimers fuel now s).elems e) := by
  induction fuel with
  | zero => intro s h; simpa [runTimers] using h
  | succ n ih =>
    intro s h
    unfold runTimers
    cases hp : popDue now s.timers.pending with
    | none => simpa using h
    | some r =>
      obtain ⟨b, rest⟩ := r
      simp only
      exact ih _ (fire_view e now I hI s b rest hp h)

theorem runTimers_flushes (now : Nat) (fuel : Nat) :
    ∀ s : Page, s.timers.pending.length ≤ fuel →
      ∀ x ∈ (runTimers fuel now s).timers.pending, ¬ x.due ≤ now := by
  induction fuel with
  | zero =>
    intro s hlen x hx
    have : s.timers.pending = [] := List.length_eq_zero.mp (Nat.le_zero.mp hlen)
    simp [runTimers, this] at hx
  | succ n ih =>
    intro s hlen
    unfold runTimers
    cases hp : popDue now s.timers.pending with
    | none => simpa using popDue_none now _ hp
    | some r =>
      obtain ⟨b, rest⟩ := r
      simp only
      obtain ⟨l1, l2, hl, hr, _, _⟩ := popDue_some now _ b rest hp
      apply ih
      rw [runCallback_timers]
      simp only [hr]
      rw [hl] at hlen
      simp at hlen ⊢
      omega


theorem onError_view (e now : Nat) (err : JsError) (s : Page) :
    restoresOf e (onError now err s) = restoresOf e s ∧ (onError now err s).elems = s.elems := by
  simp [restoresOf, onError, setTimeout, timerDelay_5000, List.filter_append, isRestoreOf]

theorem smoothScrollClick_view (doc : Doc) (e now target : Nat) (s : Page) :
    restoresOf e (smoothScrollClick doc now target s) = restoresOf e s ∧
      (smoothScrollClick doc now target s).elems = s.elems := by
  simp only [smoothScrollClick]
  split
  · rename_i err _
    have h := onError_view e now err
      { s with
        defaultPrevented := (smoothScroll doc (s.elems target)).defaultPrevented
        scrolls := match (smoothScroll doc (s.elems target)).scrollTo with
          | some o => s.scrolls ++ [o]
          | none => s.scrolls }
    simpa [restoresOf] using h
  · simp [restoresOf]

theorem loadingClick_view_ne (e now target : Nat) (s : Page) (hne : target ≠ e) :
    restoresOf e (loadingClick now target s) = restoresOf e s ∧
      (loadingClick now target s).elems e = s.elems e := by
  simp only [loadingClick]
  have hne' : e ≠ target := fun h => hne h.symm
  split
  · simp [restoresOf, setTimeout, timerDelay_2000, List.filter_append, isRestoreOf, hne,
      setElem, hne']
  · simp

theorem loadingClick_view_eq (e now : Nat) (s : Page) (hm : matchesButton (s.elems e) = true) :
    restoresOf e (loadingClick now e s) =
        restoresOf e s ++
          [⟨s.timers.nextId, now + 2000, Callback.restoreButton e (s.elems e).textContent⟩] ∧
      (loadingClick now e s).elems e =
        { s.elems e with disabled := true, children := loadingMarkup } := by
  simp [loadingClick, hm, restoresOf, setTimeout, timerDelay_2000, List.filter_append,
    isRestoreOf, setElem]

theorem menu_handlers_view (doc : Doc) (target : Nat) (s : Page) :
    (menuBtnClick s).timers = s.timers ∧ (menuBtnClick s).elems = s.elems ∧
      (navLinkClick s).timers = s.timers ∧ (navLinkClick s).elems = s.elems ∧
      (clickOutside (doc.place target) s).timers = s.timers ∧
      (clickOutside (doc.place target) s).elems = s.elems := by
  refine ⟨rfl, rfl, rfl, rfl, ?_, ?_⟩ <;>
  · simp only [clickOutside]
    split <;> rfl

theorem pathListeners_view (doc : Doc) (target : Nat) (s : Page) :
    (pathListeners doc target s).timers = s.timers ∧
      (pathListeners doc target s).elems = s.elems := by
  unfold pathListeners
  split
  · split <;> exact ⟨rfl, rfl⟩
  · exact ⟨rfl, rfl⟩

theorem dispatch_click_eq (doc : Doc) (now target : Nat) (s : Page) :
    dispatch doc now s (.click target) =
      (if doc.wired then clickOutside (doc.place target)
          (loadingClick now target (smoothScrollClick doc now target (pathListeners doc target s)))
        else loadingClick now target
          (smoothScrollClick doc now target (pathListeners doc target s))) := by
  rfl

theorem clickOutside_view (e : Nat) (p : Place) (s : Page) :
    restoresOf e (clickOutside p s) = restoresOf e s ∧ (clickOutside p s).elems = s.elems := by
  simp only [clickOutside]
  split <;> exact ⟨rfl, rfl⟩

theorem dispatch_click_view_ne (doc : Doc) (e now target : Nat) (s : Page) (hne : target ≠ e) :
    restoresOf e (dispatch doc now s (.click target)) = restoresOf e s ∧
      (dispatch doc now s (.click target)).elems e = s.elems e := by
  have h0 := pathListeners_view doc target s
  have h1 := smoothScrollClick_view doc e now target (pathListeners doc target s)
  have h2 := loadingClick_view_ne e now target
    (smoothScrollClick doc now target (pathListeners doc target s)) hne
  have h00 : restoresOf e (pathListeners doc target s) = restoresOf e s := by
    simp [restoresOf, h0.1]
  rw [dispatch_click_eq]
  split
  · have h3 := clickOutside_view e (doc.place target) (loadingClick now target
      (smoothScrollClick doc now target (pathListeners doc target s)))
    rw [h3.1, h3.2, h2.1, h2.2, h1.1, h1.2, h00, h0.2]
    exact ⟨rfl, rfl⟩
  · rw [h2.1, h2.2, h1.1, h1.2, h00, h0.2]
    exact ⟨rfl, rfl⟩

theorem dispatch_click_view_eq (doc : Doc) (e now : Nat) (s : Page)
    (hm : matchesButton (s.elems e) = true) :
    (∃ id, restoresOf e (dispatch doc now s (.click e)) =
        restoresOf e s ++
          [⟨id, now + 2000, Callback.restoreButton e (s.elems e).textContent⟩]) ∧
      (dispatch doc now s (.click e)).elems e =
        { s.elems e with disabled := true, children := loadingMarkup } := by
  have h0 := pathListeners_view doc e s
  have h1 := smoothScrollClick_view doc e now e (pathListeners doc e s)
  have hm' : matchesButton
      ((smoothScrollClick doc now e (pathListeners doc e s)).elems e) = true := by
    rw [h1.2, h0.2]; exact hm
  have h2 := loadingClick_view_eq e now
    (smoothScrollClick doc now e (pathListeners doc e s)) hm'
  have h00 : restoresOf e (pathListeners doc e s) = restoresOf e s := by
    simp [restoresOf, h0.1]
  rw [dispatch_click_eq]
  split
  · have h3 := clickOutside_view e (doc.place e) (loadingClick now e
      (smoothScrollClick doc now e (pathListeners doc e s)))
    rw [h3.1, h3.2, h2.1, h2.2, h1.1, h1.2, h00, h0.2]
    exact ⟨⟨_, rfl⟩, rfl⟩
  · rw [h2.1, h2.2, h1.1, h1.2, h00, h0.2]
    exact ⟨⟨_, rfl⟩, rfl⟩

theorem dispatch_keydown_view (doc : Doc) (e now : Nat) (key : String) (s : Page) :
    restoresOf e (dispatch doc now s (.keydown key)) = restoresOf e s ∧
      (dispatch doc now s (.keydown key)).elems = s.elems := by
  have hk : (keydownHandler doc key s).1.timers = s.timers ∧
      (keydownHandler doc key s).1.elems = s.elems := by
    simp only [keydownHandler]
    split_ifs <;> exact ⟨rfl, rfl⟩
  simp only [dispatch]
  split
  · rename_i s1 err heq
    have h := onError_view e now err s1
    have hs1 : s1 = (keydownHandler doc key s).1 := by rw [heq]
    rw [h.1, h.2, hs1]
    simp [restoresOf, hk.1, hk.2]
  · rename_i s1 heq
    have hs1 : s1 = (keydownHandler doc key s).1 := by rw [heq]
    rw [hs1]
    simp [restoresOf, hk.1, hk.2]

theorem dispatch_preserves (doc : Doc) (e now : Nat) (I : List (Timer Callback) → Element → Prop)
    (hI : FiringStable e now I) (s : Page) (i : Input) (hi : i ≠ Input.click e)
    (h : I (restoresOf e s) (s.elems e)) :
    I (restoresOf e (dispatch doc now s i)) ((dispatch doc now s i).elems e) := by
  cases i with
  | click target =>
    have hne : target ≠ e := fun hc => hi (by rw [hc])
    obtain ⟨h1, h2⟩ := dispatch_click_view_ne doc e now target s hne
    rw [h1, h2]; exact h
  | keydown key =>
    obtain ⟨h1, h2⟩ := dispatch_keydown_view doc e now key s
    rw [h1, h2]; exact h
  | mousedown => exact h
  | timers => exact runTimers_preserves e now I hI _ s h

theorem run_preserves (doc : Doc) (e : Nat) (I : List (Timer Callback) → Element → Prop)
    (trace : List (Nat × Input)) :
    ∀ s : Page, (∀ ev ∈ trace, FiringStable e ev.1 I) → (∀ ev ∈ trace, ev.2 ≠ Input.click e) →
      I (restoresOf e s) (s.elems e) →
      I (restoresOf e (run doc s trace)) ((run doc s trace).elems e) := by
  induction trace with
  | nil => intro s _ _ h; exact h
  | cons ev rest ih =>
    intro s hI hne h
    obtain ⟨now, i⟩ := ev
    simp only [run]
    apply ih
    · exact fun x hx => hI x (List.mem_cons_of_mem _ hx)
    · exact fun x hx => hne x (List.mem_cons_of_mem _ hx)
    · exact dispatch_preserves doc e now I (hI (now, i) (List.mem_cons_self _ _)) s i
        (hne (now, i) (List.mem_cons_self _ _)) h


theorem first_fires (now : Nat) (pre post : List (Timer Callback)) (b : Timer Callback)
    (hpw : (pre ++ b :: post).Pairwise (fun a b => a.due ≤ b.due)) (hb : b.due ≤ now)
    (hmin : ∀ x ∈ pre, x.due ≤ now → b.due < x.due) : pre = [] := by
  cases pre with
  | nil => rfl
  | cons x pre' =>
    exfalso
    have hx : x.due ≤ b.due := by
      have := List.pairwise_append.mp hpw
      exact this.2.2 x (List.mem_cons_self _ _) b (List.mem_cons_self _ _)
    have := hmin x (List.mem_cons_self _ _) (by omega)
    omega

theorem settles_stable (e : Nat) (X : String) (D now : Nat) :
    FiringStable e now (Settles e X D) := by
  intro rs el pre b post txt h hrs hb hmin hcb
  obtain ⟨hpw, hbd, hlast⟩ := h
  subst hrs
  have hpre := first_fires now pre post b hpw hb hmin
  subst hpre
  simp only [List.nil_append] at hpw hbd hlast ⊢
  refine ⟨(List.pairwise_cons.mp hpw).2, fun tm htm => hbd tm (List.mem_cons_of_mem _ htm), ?_⟩
  cases post with
  | nil =>
    simp only [List.getLast?_singleton] at hlast
    rw [hcb] at hlast
    cases hlast
    simp [Element.textContent, textContent_setTextContent]
  | cons y ys =>
    simpa [List.getLast?_cons_cons] using hlast

theorem ordered_stable (e D now : Nat) : FiringStable e now (Ordered D) := by
  intro rs el pre b post txt h hrs _ _ _
  obtain ⟨hpw, hbd⟩ := h
  subst hrs
  have hsub : List.Sublist (pre ++ post) (pre ++ b :: post) :=
    List.Sublist.append (List.Sublist.refl _) (List.sublist_cons_self _ _)
  exact ⟨hpw.sublist hsub, fun tm htm => hbd tm (hsub.subset htm)⟩

theorem inFlight_stable (e now : Nat) (tm : Timer Callback) (el0 : Element)
    (hnow : now < tm.due) : FiringStable e now (InFlight tm el0) := by
  intro rs el pre b post txt h hrs hb _ _
  obtain ⟨h1, _⟩ := h
  rw [h1] at hrs
  cases pre with
  | nil =>
    simp at hrs
    rw [← hrs.1] at hb
    omega
  | cons x pre' => simp at hrs

theorem settles_flush (doc : Doc) (e : Nat) (X : String) (D T : Nat) (s : Page)
    (h : Settles e X D (restoresOf e s) (s.elems e)) (hT : D ≤ T) :
    ((dispatch doc T s Input.timers).elems e).disabled = false ∧
      ((dispatch doc T s Input.timers).elems e).textContent = X := by
  have h' := runTimers_preserves e T _ (settles_stable e X D T) s.timers.pending.length s h
  have hf := runTimers_flushes T s.timers.pending.length s (le_refl _)
  simp only [dispatch]
  obtain ⟨_, hbd, hlast⟩ := h'
  have hnil : restoresOf e (runTimers s.timers.pending.length T s) = [] := by
    apply List.eq_nil_iff_forall_not_mem.mpr
    intro x hx
    have hx' : x ∈ (runTimers s.timers.pending.length T s).timers.pending :=
      List.mem_of_mem_filter hx
    exact hf x hx' (le_trans (hbd x hx) hT)
  rw [hnil] at hlast
  simpa using hlast


theorem dispatch_click_view_idle (doc : Doc) (e now : Nat) (s : Page)
    (hm : matchesButton (s.elems e) = false) :
    restoresOf e (dispatch doc now s (.click e)) = restoresOf e s ∧
      (dispatch doc now s (.click e)).elems e = s.elems e := by
  have h0 := pathListeners_view doc e s
  have h1 := smoothScrollClick_view doc e now e (pathListeners doc e s)
  have hm' : matchesButton
      ((smoothScrollClick doc now e (pathListeners doc e s)).elems e) = false := by
    rw [h1.2, h0.2]; exact hm
  have h2 : loadingClick now e (smoothScrollClick doc now e (pathListeners doc e s)) =
      smoothScrollClick doc now e (pathListeners doc e s) := by
    simp [loadingClick, hm']
  have h00 : restoresOf e (pathListeners doc e s) = restoresOf e s := by
    simp [restoresOf, h0.1]
  rw [dispatch_click_eq]
  split
  · have h3 := clickOutside_view e (doc.place e) (loadingClick now e
      (smoothScrollClick doc now e (pathListeners doc e s)))
    rw [h3.1, h3.2, h2, h1.1, h1.2, h00, h0.2]
    exact ⟨rfl, rfl⟩
  · rw [h2, h1.1, h1.2, h00, h0.2]
    exact ⟨rfl, rfl⟩

theorem ordered_mono (D D' : Nat) (rs : List (Timer Callback)) (el : Element)
    (h : Ordered D rs el) (hD : D ≤ D') : Ordered D' rs el :=
  ⟨h.1, fun tm htm => le_trans (h.2 tm htm) hD⟩

theorem ordered_snoc (D : Nat) (rs : List (Timer Callback)) (el el' : Element)
    (tm : Timer Callback) (h : Ordered D rs el) (htm : tm.due = D) :
    Ordered D (rs ++ [tm]) el' := by
  refine ⟨?_, ?_⟩
  · apply List.pairwise_append.mpr
    refine ⟨h.1, List.pairwise_singleton _ _, ?_⟩
    intro a ha b hb
    simp at hb
    subst hb
    rw [htm]
    exact h.2 a ha
  · intro x hx
    rcases List.mem_append.mp hx with h1 | h1
    · exact h.2 x h1
    · simp at h1
      subst h1
      omega

theorem dispatch_ordered (doc : Doc) (e now : Nat) (s : Page) (i : Input)
    (h : Ordered (now + 2000) (restoresOf e s) (s.elems e)) :
    Ordered (now + 2000) (restoresOf e (dispatch doc now s i))
      ((dispatch doc now s i).elems e) := by
  by_cases hi : i = Input.click e
  · subst hi
    cases hm : matchesButton (s.elems e) with
    | true =>
      obtain ⟨⟨id, h1⟩, _⟩ := dispatch_click_view_eq doc e now s hm
      rw [h1]
      exact ordered_snoc _ _ (s.elems e) _ _ h rfl
    | false =>
      obtain ⟨h1, h2⟩ := dispatch_click_view_idle doc e now s hm
      rw [h1, h2]; exact h
  · exact dispatch_preserves doc e now _ (ordered_stable e _ now) s i hi h

theorem run_ordered (doc : Doc) (e : Nat) (trace : List (Nat × Input)) :
    ∀ (s : Page) (now t : Nat), Ordered (now + 2000) (restoresOf e s) (s.elems e) →
      List.Chain (· ≤ ·) now (trace.map Prod.fst ++ [t]) →
      Ordered (t + 2000) (restoresOf e (run doc s trace)) ((run doc s trace).elems e) := by
  induction trace with
  | nil =>
    intro s now t h hc
    simp at hc
    exact ordered_mono _ _ _ _ h (by omega)
  | cons ev rest ih =>
    intro s now t h hc
    obtain ⟨t', i⟩ := ev
    simp only [List.map_cons, List.cons_append, List.chain_cons] at hc
    simp only [run]
    exact ih _ t' t (dispatch_ordered doc e t' s i (ordered_mono _ _ _ _ h (by omega))) hc.2

theorem settles_after_click (doc : Doc) (e now : Nat) (s : Page)
    (hm : matchesButton (s.elems e) = true)
    (h : Ordered (now + 2000) (restoresOf e s) (s.elems e)) :
    Settles e (s.elems e).textContent (now + 2000)
      (restoresOf e (dispatch doc now s (.click e))) ((dispatch doc now s (.click e)).elems e) := by
  obtain ⟨⟨id, h1⟩, _⟩ := dispatch_click_view_eq doc e now s hm
  rw [h1]
  have ho := ordered_snoc (now + 2000) (restoresOf e s) (s.elems e)
    ((dispatch doc now s (.click e)).elems e)
    ⟨id, now + 2000, Callback.restoreButton e (s.elems e).textContent⟩ h rfl
  exact ⟨ho.1, ho.2, by simp⟩

/-- C5: on a page reached from one without pending timers by inputs at non-decreasing
times, a click at time `t` on an element matching `button, .btn-primary` disables it and
makes its content the spinner followed by `Loading...`; when no other click on that element
is dispatched before the event loop runs at a time `T ≥ t + 2000`, the element is then
enabled and its text content is the one it had when clicked. -/
theorem C5_loading_single (doc : Doc) (s0 : Page) (before : List (Nat × Input)) (e t : Nat)
    (evs : List (Nat × Input)) (T : Nat)
    (hidle : s0.timers.pending = [])
    (hsorted : List.Chain' (· ≤ ·) (before.map Prod.fst ++ [t]))
    (hmatch : matchesButton ((run doc s0 before).elems e) = true)
    (hothers : ∀ ev ∈ evs, ev.2 ≠ Input.click e)
    (hT : t + 2000 ≤ T) :
    ((dispatch doc t (run doc s0 before) (.click e)).elems e).disabled = true ∧
      ((dispatch doc t (run doc s0 before) (.click e)).elems e).children = loadingMarkup ∧
      ((run doc (dispatch doc t (run doc s0 before) (.click e))
          (evs ++ [(T, Input.timers)])).elems e).disabled = false ∧
      ((run doc (dispatch doc t (run doc s0 before) (.click e))
          (evs ++ [(T, Input.timers)])).elems e).textContent =
        ((run doc s0 before).elems e).textContent := by
  have h0 : Ordered (0 + 2000) (restoresOf e s0) (s0.elems e) := by
    simp [Ordered, restoresOf, hidle]
  have hc : List.Chain (· ≤ ·) 0 (before.map Prod.fst ++ [t]) := by
    cases hb : before.map Prod.fst ++ [t] with
    | nil => exact List.Chain.nil
    | cons x rest =>
      rw [hb] at hsorted
      exact List.Chain.cons (Nat.zero_le _) hsorted
  have hord := run_ordered doc e before s0 0 t h0 hc
  have hclick := dispatch_click_view_eq doc e t (run doc s0 before) hmatch
  have hset := settles_after_click doc e t (run doc s0 before) hmatch hord
  have hrun := run_preserves doc e _ evs (dispatch doc t (run doc s0 before) (.click e))
    (fun ev _ => settles_stable e _ _ ev.1) hothers hset
  have hfin := settles_flush doc e _ _ T _ hrun hT
  refine ⟨by rw [hclick.2], by rw [hclick.2], ?_, ?_⟩
  · rw [run_append]; exact hfin.1
  · rw [run_append]; exact hfin.2

/-- C10, as stated, fails for an element whose original text `T` is `Loading...` itself:
the `.btn-primary` anchor of `pageLoadingLabel`, with no restoration pending, clicked at 0 ms
and again at 800 ms, is enabled and reads `Loading...` once both restorations have fired,
and that text is `T`. -/
theorem C10_counterexample :
    matchesButton (pageLoadingLabel.elems 3) = true ∧
      restoresOf 3 pageLoadingLabel = [] ∧
      (pageLoadingLabel.elems 3).textContent = "Loading..." ∧
      ¬ (((run sampleDoc pageLoadingLabel
            [(0, .click 3), (800, .click 3), (2000, .timers), (2800, .timers)]).elems
              3).disabled = false ∧
          ((run sampleDoc pageLoadingLabel
            [(0, .click 3), (800, .click 3), (2000, .timers), (2800, .timers)]).elems
              3).textContent = "Loading..." ∧
          ((run sampleDoc pageLoadingLabel
            [(0, .click 3), (800, .click 3), (2000, .timers), (2800, .timers)]).elems
              3).textContent ≠ (pageLoadingLabel.elems 3).textContent) := by
  refine ⟨by decide, rfl, by decide, ?_⟩
  decide

/-- C10, amended: when an element matching `button, .btn-primary`, with no restoration
pending, is clicked at `t1` and again at `t2 < t1 + 2000`, the text captured at the second
click is `Loading...`; once the event loop has run at a time `T ≥ t2 + 2000`, with no
further click on the element, the element is enabled and its text content is `Loading...`,
which is not its original text unless that was `Loading...` itself. -/
theorem C10_loading_overlap (doc : Doc) (s : Page) (e t1 t2 : Nat)
    (evs1 evs2 : List (Nat × Input)) (T : Nat)
    (hmatch : matchesButton (s.elems e) = true)
    (hfresh : restoresOf e s = [])
    (h12 : t1 ≤ t2) (hlt : t2 < t1 + 2000)
    (hevs1 : ∀ ev ∈ evs1, ev.2 ≠ Input.click e ∧ ev.1 ≤ t2)
    (hevs2 : ∀ ev ∈ evs2, ev.2 ≠ Input.click e)
    (hT : t2 + 2000 ≤ T) :
    ((run doc (dispatch doc t1 s (.click e)) evs1).elems e).textContent = "Loading..." ∧
      ((run doc (dispatch doc t2 (run doc (dispatch doc t1 s (.click e)) evs1) (.click e))
          (evs2 ++ [(T, Input.timers)])).elems e).disabled = false ∧
      ((run doc (dispatch doc t2 (run doc (dispatch doc t1 s (.click e)) evs1) (.click e))
          (evs2 ++ [(T, Input.timers)])).elems e).textContent = "Loading..." ∧
      ((s.elems e).textContent ≠ "Loading..." →
        ((run doc (dispatch doc t2 (run doc (dispatch doc t1 s (.click e)) evs1) (.click e))
          (evs2 ++ [(T, Input.timers)])).elems e).textContent ≠ (s.elems e).textContent) := by
  obtain ⟨⟨id1, hr1⟩, hel1⟩ := dispatch_click_view_eq doc e t1 s hmatch
  rw [hfresh, List.nil_append] at hr1
  have hfl : InFlight ⟨id1, t1 + 2000, Callback.restoreButton e (s.elems e).textContent⟩
      { s.elems e with disabled := true, children := loadingMarkup }
      (restoresOf e (dispatch doc t1 s (.click e))) ((dispatch doc t1 s (.click e)).elems e) :=
    ⟨hr1, hel1⟩
  have hmid := run_preserves doc e _ evs1 (dispatch doc t1 s (.click e))
    (fun ev hev => inFlight_stable e ev.1 _ _ (by have := (hevs1 ev hev).2; simp; omega))
    (fun ev hev => (hevs1 ev hev).1) hfl
  obtain ⟨hr2, hel2⟩ := hmid
  have htext : ((run doc (dispatch doc t1 s (.click e)) evs1).elems e).textContent =
      "Loading..." := by
    rw [hel2]; exact textContent_loadingMarkup
  have hmatch2 : matchesButton ((run doc (dispatch doc t1 s (.click e)) evs1).elems e) = true := by
    rw [hel2]; simpa [matchesButton] using hmatch
  have hord : Ordered (t2 + 2000) (restoresOf e (run doc (dispatch doc t1 s (.click e)) evs1))
      ((run doc (dispatch doc t1 s (.click e)) evs1).elems e) := by
    rw [hr2]
    exact ⟨List.pairwise_singleton _ _, by simp; omega⟩
  have hset := settles_after_click doc e t2 _ hmatch2 hord
  rw [htext] at hset
  have hrun := run_preserves doc e _ evs2 _ (fun ev _ => settles_stable e _ _ ev.1) hevs2 hset
  have hfin := settles_flush doc e _ _ T _ hrun hT
  rw [run_append]
  refine ⟨htext, hfin.1, hfin.2, ?_⟩
  intro hne
  rw [show (run doc (run doc (dispatch doc t2 (run doc (dispatch doc t1 s (.click e)) evs1)
    (.click e)) evs2) [(T, Input.timers)]) = dispatch doc T (run doc (dispatch doc t2
    (run doc (dispatch doc t1 s (.click e)) evs1) (.click e)) evs2) Input.timers from rfl]
  rw [hfin.2]
  exact fun h => hne h.symm

/-- On the sample page, the `.btn-primary` anchor clicked at 100 ms shows the loading state,
and after a click elsewhere, a key press and the timers running at 2100 ms it is enabled
with its text `Download` back. -/
theorem C5_loading_single_witness :
    ((dispatch sampleDoc 100 (run sampleDoc samplePage []) (.click 3)).elems 3).disabled = true ∧
      ((dispatch sampleDoc 100 (run sampleDoc samplePage []) (.click 3)).elems 3).children =
        loadingMarkup ∧
      ((run sampleDoc (dispatch sampleDoc 100 (run sampleDoc samplePage []) (.click 3))
          ([(500, Input.click 1), (1200, Input.keydown "Tab")] ++
            [(2100, Input.timers)])).elems 3).disabled = false ∧
      ((run sampleDoc (dispatch sampleDoc 100 (run sampleDoc samplePage []) (.click 3))
          ([(500, Input.click 1), (1200, Input.keydown "Tab")] ++
            [(2100, Input.timers)])).elems 3).textContent =
        ((run sampleDoc samplePage []).elems 3).textContent :=
  C5_loading_single sampleDoc samplePage [] 3 100
    [(500, Input.click 1), (1200, Input.keydown "Tab")] 2100 rfl (by simp) (by decide)
    (by decide) (by decide)

/-- On the sample page, the `.btn-primary` anchor clicked at 0 ms and again at 800 ms ends
enabled with the text `Loading...`, not `Download`. -/
theorem C10_loading_overlap_witness :
    ((run sampleDoc (dispatch sampleDoc 0 samplePage (.click 3))
        [(300, Input.timers)]).elems 3).textContent = "Loading..." ∧
      ((run sampleDoc (dispatch sampleDoc 800 (run sampleDoc
        (dispatch sampleDoc 0 samplePage (.click 3)) [(300, Input.timers)]) (.click 3))
          ([(2000, Input.timers)] ++ [(2800, Input.timers)])).elems 3).disabled = false ∧
      ((run sampleDoc (dispatch sampleDoc 800 (run sampleDoc
        (dispatch sampleDoc 0 samplePage (.click 3)) [(300, Input.timers)]) (.click 3))
          ([(2000, Input.timers)] ++ [(2800, Input.timers)])).elems 3).textContent
        = "Loading..." ∧
      ((samplePage.elems 3).textContent ≠ "Loading..." →
        ((run sampleDoc (dispatch sampleDoc 800 (run sampleDoc
          (dispatch sampleDoc 0 samplePage (.click 3)) [(300, Input.timers)]) (.click 3))
            ([(2000, Input.timers)] ++ [(2800, Input.timers)])).elems 3).textContent ≠
          (samplePage.elems 3).textContent) :=
  C10_loading_overlap sampleDoc samplePage 3 0 800 [(300, Input.timers)] [(2000, Input.timers)]
    2800 (by decide) rfl (by decide) (by decide) (by decide) (by decide) (by decide)

/-- The run of the witness above, evaluated: after the first restoration, at 2000 ms, the
anchor shows `Download` again; after the second, at 2800 ms, it shows `Loading...`. -/
theorem loading_overlap_example :
    ((run sampleDoc samplePage
        [(0, .click 3), (300, .timers), (800, .click 3), (2000, .timers)]).elems 3).textContent
        = "Download" ∧
      ((run sampleDoc samplePage
        [(0, .click 3), (300, .timers), (800, .click 3), (2000, .timers),
          (2800, .timers)]).elems 3).textContent = "Loading..." ∧
      ((run sampleDoc samplePage
        [(0, .click 3), (300, .timers), (800, .click 3), (2000, .timers),
          (2800, .timers)]).elems 3).disabled = false := by
  decide

end Portfolio
